import Mathlib

/-!
Verification development for the papermrks offline-first sync subsystem.

The definitions below are a shallow embedding of the TypeScript sources:
  * `src/lib/dexie.ts`        — the entity data model and the Dexie table API
  * `src/helpers/db-sync.ts`  — the `SyncEngine` class (push/pull sync cycle)
  * `src/hooks/use-collections.ts` — collection CRUD operations

Conventions of the embedding:
  * JavaScript `number` timestamps (epoch milliseconds) become `Nat`.
  * Optional (`?:`) fields become `Option`.
  * `boolean | undefined` fields that the code only ever tests for
    truthiness (`isDeleted`) become `Bool` (`undefined` collapses to `false`,
    which is observationally equivalent under `!x` and `x === true`).
  * Dexie tables become Lean lists; the Dexie primitives (`get`, `update`,
    `bulkUpdate`, `bulkPut`, `bulkDelete`) become generic list operations
    keyed by a key function, mirroring Dexie's primary-key semantics.
  * Asynchronous effects (fetch, crypto.randomUUID, Date.now) are passed in
    explicitly through a `SyncEnv` record; a transport-level failure of a
    chunk POST (network error, non-ok status, JSON parse error) is an
    `Except.error` response, a parsed JSON body is `Except.ok` of a raw
    response whose fields are `Option`s (a missing / `undefined` JSON field
    is `none`).  Reading `.length` of a missing field, which in JavaScript
    throws a `TypeError` that aborts the enclosing Dexie transaction, is
    modelled by `markAsSynced` returning `Except.error` and leaving the
    store unchanged (transaction rollback).
-/

namespace Papermrks

/-! ## Data model (src/lib/dexie.ts) -/

inductive ItemType where
  | bookmark
  | color
  | text
deriving DecidableEq, Repr

inductive SyncStatus where
  | pending
  | syncing
  | synced
  | error
deriving DecidableEq, Repr

structure LocalItem where
  id : String
  userId : String
  collectionId : String
  type : ItemType
  title : String
  rawInput : String
  url : Option String := none
  normalizedUrl : Option String := none
  description : Option String := none
  summary : Option String := none
  favicon : Option String := none
  colorValue : Option String := none
  isRead : Bool
  isFavorite : Bool
  syncStatus : SyncStatus
  lastSyncedAt : Option Nat := none
  syncError : Option String := none
  isDeleted : Bool := false
  deletedAt : Option Nat := none
  createdAt : Nat
  updatedAt : Nat
deriving DecidableEq, Repr

structure LocalCollection where
  id : String
  userId : String
  name : String
  slug : String
  color : Option String := none
  isDefault : Bool
  syncStatus : SyncStatus
  lastSyncedAt : Option Nat := none
  syncError : Option String := none
  isDeleted : Bool := false
  deletedAt : Option Nat := none
  createdAt : Nat
  updatedAt : Nat
deriving DecidableEq, Repr

structure LocalTag where
  id : String
  userId : String
  name : String
  slug : String
  syncStatus : SyncStatus
  lastSyncedAt : Option Nat := none
  syncError : Option String := none
  isDeleted : Bool := false
  deletedAt : Option Nat := none
  createdAt : Nat
  updatedAt : Nat
deriving DecidableEq, Repr

structure LocalItemTag where
  itemId : String
  tagId : String
  syncStatus : SyncStatus
deriving DecidableEq, Repr

/-- Deletion id lists carried by a `SyncPayload` (db-sync.ts, `SyncPayload.deletions`). -/
structure Deletions where
  itemIds : List String
  collectionIds : List String
  tagIds : List String
deriving DecidableEq, Repr

/-- One push batch / chunk (db-sync.ts, `SyncPayload`). -/
structure SyncPayload where
  items : List LocalItem
  collections : List LocalCollection
  tags : List LocalTag
  itemTags : List LocalItemTag
  deletions : Deletions
deriving DecidableEq, Repr

/-- A persisted retry-queue row (dexie.ts, `SyncQueue`).  The TS `data` field is an
opaque `Record<string, unknown>` that `addChunkToRetryQueue` fills with the failed
chunk, so it is typed as `SyncPayload` here. -/
structure SyncQueue where
  id : String
  operation : String
  entity : String
  entityId : String
  data : SyncPayload
  retryCount : Nat
  maxRetries : Nat
  lastAttemptAt : Option Nat := none
  nextRetryAt : Option Nat := none
  error : Option String := none
  createdAt : Nat
deriving DecidableEq, Repr

/-- The per-user Dexie database: one list per table (dexie.ts, `BookmarkDatabase`). -/
structure Store where
  items : List LocalItem
  collections : List LocalCollection
  tags : List LocalTag
  itemTags : List LocalItemTag
  syncQueue : List SyncQueue
deriving DecidableEq, Repr

/-! ## Dexie table primitives, keyed by a primary-key function.

These model the Dexie API used by the sources: `get` returns the record with
the given primary key, `update(key, changes)` patches the record with that
key, a bulk update with one change-set applies it to every listed key,
`bulkPut` replaces-or-appends record by record, `bulkDelete` removes the
listed keys. -/

/-- Dexie `Table.get k` — the record whose primary key is `k`. -/
def tableGet [DecidableEq κ] (key : α → κ) (l : List α) (k : κ) : Option α :=
  l.find? (fun e => key e = k)

/-- Dexie `Table.update k changes` — patch the record whose primary key is `k`. -/
def tableUpdate [DecidableEq κ] (key : α → κ) (l : List α) (k : κ) (f : α → α) : List α :=
  l.map (fun e => if key e = k then f e else e)

/-- A Dexie `bulkUpdate` in which every listed key receives the same change set,
which is the only form the sources use. -/
def bulkUpdateWhere [DecidableEq κ] (key : α → κ) (ks : List κ) (f : α → α)
    (l : List α) : List α :=
  l.map (fun e => if ks.contains (key e) then f e else e)

/-- Dexie `Table.bulkDelete ks`. -/
def bulkDelete [DecidableEq κ] (key : α → κ) (ks : List κ) (l : List α) : List α :=
  l.filter (fun e => !(ks.contains (key e)))

/-- One Dexie `put`: replace the record with the same primary key, or append. -/
def putByKey [DecidableEq κ] (key : α → κ) (l : List α) (x : α) : List α :=
  if l.any (fun e => key e = key x) then
    l.map (fun e => if key e = key x then x else e)
  else
    l ++ [x]

/-- Dexie `Table.bulkPut` — record-by-record `put`, in order. -/
def bulkPut [DecidableEq κ] (key : α → κ) (l : List α) (u : List α) : List α :=
  u.foldl (putByKey key) l

/-- Primary key of the `itemTags` table (`[itemId+tagId]`). -/
def itemTagKey (it : LocalItemTag) : String × String :=
  (it.itemId, it.tagId)

/-! ## SyncEngine configuration and environment (db-sync.ts) -/

/-- `Required<SyncOptions>` (db-sync.ts). -/
structure SyncOptions where
  chunkSize : Nat
  maxRetries : Nat
  retryDelayMs : Nat
deriving DecidableEq, Repr

/-- `DEFAULT_SYNC_OPTIONS` (db-sync.ts). -/
def DEFAULT_SYNC_OPTIONS : SyncOptions :=
  { chunkSize := 100, maxRetries := 3, retryDelayMs := 1000 }

/-- `SyncResult` (db-sync.ts). -/
structure SyncResult where
  success : Bool
  itemsSynced : Nat
  collectionsSynced : Nat
  tagsSynced : Nat
  itemsDeleted : Nat
  collectionsDeleted : Nat
  tagsDeleted : Nat
  errors : List String
  warnings : List String
deriving DecidableEq, Repr

/-- One conflict record of a server acknowledgement (db-sync.ts, `ServerResponse.conflicts`). -/
structure SyncConflict where
  entity : String
  entityId : String
  reason : String
deriving DecidableEq, Repr

/-- The `synced` partition of a parsed acknowledgement; each field is `none`
when the corresponding JSON field is missing. -/
structure RawSyncedPart where
  items : Option (List String)
  collections : Option (List String)
  tags : Option (List String)
  itemTags : Option (List (String × String))
deriving DecidableEq, Repr

/-- The `deleted` partition of a parsed acknowledgement. -/
structure RawDeletedPart where
  items : Option (List String)
  collections : Option (List String)
  tags : Option (List String)
deriving DecidableEq, Repr

/-- A parsed acknowledgement body before structural validation
(db-sync.ts, `ServerResponse`, as it arrives from `response.json()`). -/
structure RawServerResponse where
  success : Option Bool
  synced : Option RawSyncedPart
  deleted : Option RawDeletedPart
  conflicts : Option (List SyncConflict)
deriving DecidableEq, Repr

/-- The effectful context of one `sync()` call: the transport outcome of the
`i`-th chunk POST (`Except.error` = network error / non-ok status / JSON parse
error), the body of the pull GET (`none` = that request failed), the UUIDs
minted by `crypto.randomUUID()` for retry-queue rows, and `Date.now()`. -/
structure SyncEnv where
  responses : Nat → Except String RawServerResponse
  pullData : Option SyncPayload
  uuids : Nat → String
  now : Nat

/-! ## Change Collector and Batch Splitter (db-sync.ts) -/

/-- `where("syncStatus").anyOf("pending", "error")`. -/
def isPendingOrError (s : SyncStatus) : Bool :=
  s == .pending || s == .error

/-- `SyncEngine.gatherPendingData` — active pending/error entities plus the ids
of soft-deleted pending/error entities. -/
def gatherPendingData (st : Store) : SyncPayload :=
  { items := st.items.filter (fun i => isPendingOrError i.syncStatus && !i.isDeleted)
    collections := st.collections.filter (fun c => isPendingOrError c.syncStatus && !c.isDeleted)
    tags := st.tags.filter (fun t => isPendingOrError t.syncStatus && !t.isDeleted)
    itemTags := st.itemTags.filter (fun it => isPendingOrError it.syncStatus)
    deletions :=
      { itemIds := (st.items.filter (fun i => isPendingOrError i.syncStatus && i.isDeleted)).map (·.id)
        collectionIds := (st.collections.filter (fun c => isPendingOrError c.syncStatus && c.isDeleted)).map (·.id)
        tagIds := (st.tags.filter (fun t => isPendingOrError t.syncStatus && t.isDeleted)).map (·.id) } }

/-- `SyncEngine.isPayloadEmpty`. -/
def isPayloadEmpty (p : SyncPayload) : Bool :=
  p.items.length == 0 && p.collections.length == 0 && p.tags.length == 0 &&
    p.itemTags.length == 0 && p.deletions.itemIds.length == 0 &&
    p.deletions.collectionIds.length == 0 && p.deletions.tagIds.length == 0

/-- `SyncEngine.markAsSyncing` — stamp every entity of the payload `syncing`. -/
def markAsSyncing (st : Store) (p : SyncPayload) : Store :=
  { st with
    items := bulkUpdateWhere (·.id) (p.items.map (·.id))
      (fun i => { i with syncStatus := .syncing }) st.items
    collections := bulkUpdateWhere (·.id) (p.collections.map (·.id))
      (fun c => { c with syncStatus := .syncing }) st.collections
    tags := bulkUpdateWhere (·.id) (p.tags.map (·.id))
      (fun t => { t with syncStatus := .syncing }) st.tags
    itemTags := bulkUpdateWhere itemTagKey (p.itemTags.map itemTagKey)
      (fun it => { it with syncStatus := .syncing }) st.itemTags }

/-- Total entity count of a payload (`totalSize` in `SyncEngine.chunkPayload`). -/
def totalSize (p : SyncPayload) : Nat :=
  p.items.length + p.collections.length + p.tags.length + p.itemTags.length

/-- The empty deletions record used for chunks after the first. -/
def emptyDeletions : Deletions :=
  { itemIds := [], collectionIds := [], tagIds := [] }

/-- The body of the `for (let i = 0; i < payload.items.length; i += chunkSize)`
loop in `SyncEngine.chunkPayload`, with the loop counter `i` explicit and a
fuel argument for termination.  For `0 < chunkSize` a fuel of
`payload.items.length` is enough to run the loop to completion (for
`chunkSize = 0` the TS loop would not terminate, so that case is outside the
embedding and every theorem below assumes `0 < chunkSize`). -/
def chunkPayloadGo (chunkSize : Nat) (p : SyncPayload) : Nat → Nat → List SyncPayload
  | 0, _ => []
  | fuel + 1, i =>
    if i < p.items.length then
      { items := (p.items.drop i).take chunkSize
        collections := if i = 0 then p.collections else []
        tags := if i = 0 then p.tags else []
        itemTags := if i = 0 then p.itemTags else []
        deletions := if i = 0 then p.deletions else emptyDeletions } ::
        chunkPayloadGo chunkSize p fuel (i + chunkSize)
    else []

/-- `SyncEngine.chunkPayload`. -/
def chunkPayload (chunkSize : Nat) (p : SyncPayload) : List SyncPayload :=
  if totalSize p ≤ chunkSize then [p]
  else chunkPayloadGo chunkSize p p.items.length 0

/-! ## Transport Client response validation (db-sync.ts) -/

/-- `SyncEngine.validateServerResponse`.  The TS checks, in order:
`typeof r.success === "boolean"`, `r.synced` defined and an object,
`Array.isArray` on `synced.items` / `synced.collections` / `synced.tags`,
`r.deleted` defined and an object, and `Array.isArray(r.deleted.items)`.
Note that it checks neither `synced.itemTags` nor `deleted.collections`
nor `deleted.tags`. -/
def validateServerResponse (r : RawServerResponse) : Bool :=
  match r.success, r.synced, r.deleted with
  | some _, some s, some d =>
    s.items.isSome && s.collections.isSome && s.tags.isSome && d.items.isSome
  | _, _, _ => false

/-! ## Reconciler: acknowledgement application (db-sync.ts) -/

/-- `SyncEngine.markAsSynced`.  Stamps acknowledged entities `synced`,
purges acknowledged deletions.  The TS body reads
`serverResponse.synced.itemTags.length`, `serverResponse.deleted.collections.length`
and `serverResponse.deleted.tags.length` without prior validation; when one of
those fields is missing this throws a `TypeError` inside the Dexie transaction,
which rolls the whole transaction back — modelled as `Except.error` with the
store unchanged.  The four fields that `validateServerResponse` did check are
read with a `[]` default, which is observationally equivalent because this
function is only reached after validation succeeded. -/
def markAsSynced (now : Nat) (st : Store) (r : RawServerResponse) :
    Except String Store :=
  let syncedPart := (r.synced.getD ⟨none, none, none, none⟩)
  let deletedPart := (r.deleted.getD ⟨none, none, none⟩)
  match syncedPart.itemTags, deletedPart.collections, deletedPart.tags with
  | some syncedItemTags, some deletedCollections, some deletedTags =>
    .ok
      { items :=
          bulkDelete (·.id) (deletedPart.items.getD [])
            (bulkUpdateWhere (·.id) (syncedPart.items.getD [])
              (fun i => { i with syncStatus := .synced, lastSyncedAt := some now, syncError := none })
              st.items)
        collections :=
          bulkDelete (·.id) deletedCollections
            (bulkUpdateWhere (·.id) (syncedPart.collections.getD [])
              (fun c => { c with syncStatus := .synced, lastSyncedAt := some now, syncError := none })
              st.collections)
        tags :=
          bulkDelete (·.id) deletedTags
            (bulkUpdateWhere (·.id) (syncedPart.tags.getD [])
              (fun t => { t with syncStatus := .synced, lastSyncedAt := some now, syncError := none })
              st.tags)
        itemTags :=
          bulkUpdateWhere itemTagKey syncedItemTags
            (fun it => { it with syncStatus := .synced }) st.itemTags
        syncQueue := st.syncQueue }
  | _, _, _ => .error "TypeError: Cannot read properties of undefined"

/-- `SyncEngine.markAsError` — stamp every entity of the failed chunk `error`
with the failure message. -/
def markAsError (st : Store) (chunk : SyncPayload) (msg : String) : Store :=
  { st with
    items := bulkUpdateWhere (·.id) (chunk.items.map (·.id))
      (fun i => { i with syncStatus := .error, syncError := some msg }) st.items
    collections := bulkUpdateWhere (·.id) (chunk.collections.map (·.id))
      (fun c => { c with syncStatus := .error, syncError := some msg }) st.collections
    tags := bulkUpdateWhere (·.id) (chunk.tags.map (·.id))
      (fun t => { t with syncStatus := .error, syncError := some msg }) st.tags
    itemTags := bulkUpdateWhere itemTagKey (chunk.itemTags.map itemTagKey)
      (fun it => { it with syncStatus := .error }) st.itemTags }

/-! ## Retry Scheduler (db-sync.ts) -/

/-- `SyncEngine.calculateBackoff`. -/
def calculateBackoff (opts : SyncOptions) (retryCount : Nat) : Nat :=
  opts.retryDelayMs * 2 ^ retryCount

/-- `SyncEngine.addChunkToRetryQueue` — persist a failed chunk with
`retryCount = 0` and `nextRetryAt = now + retryDelayMs`.  `newId` stands for
the `crypto.randomUUID()` result. -/
def addChunkToRetryQueue (opts : SyncOptions) (st : Store) (chunk : SyncPayload)
    (msg : String) (now : Nat) (newId : String) : Store :=
  { st with
    syncQueue := st.syncQueue ++
      [{ id := newId
         operation := "create"
         entity := "item"
         entityId := "batch_sync"
         data := chunk
         retryCount := 0
         maxRetries := opts.maxRetries
         nextRetryAt := some (now + opts.retryDelayMs)
         error := some msg
         createdAt := now }] }

/-- `where("nextRetryAt").below(now)` — a row is due when its `nextRetryAt`
index key is strictly below `now` (rows without the key are not indexed). -/
def retryDue (now : Nat) (e : SyncQueue) : Bool :=
  match e.nextRetryAt with
  | some t => t < now
  | none => false

/-- One iteration of the `for (const item of retryItems)` loop in
`SyncEngine.processRetryQueue`: drop the row once `retryCount >= maxRetries`,
otherwise bump `retryCount` and recompute `nextRetryAt` from the
**pre-increment** count. -/
def retryStep (opts : SyncOptions) (now : Nat) (q : List SyncQueue)
    (item : SyncQueue) : List SyncQueue :=
  if item.maxRetries ≤ item.retryCount then
    q.filter (fun e => e.id ≠ item.id)
  else
    tableUpdate (·.id) q item.id (fun e =>
      { e with
        retryCount := item.retryCount + 1
        lastAttemptAt := some now
        nextRetryAt := some (now + calculateBackoff opts item.retryCount) })

/-- `SyncEngine.processRetryQueue`. -/
def processRetryQueue (opts : SyncOptions) (st : Store) (now : Nat) : Store :=
  let retryItems := st.syncQueue.filter (retryDue now)
  { st with syncQueue := retryItems.foldl (retryStep opts now) st.syncQueue }

/-! ## Reconciler: pull-phase merge (db-sync.ts) -/

/-- `SyncEngine.mergeItems` — last-write-wins: take the server copy when there
is no local counterpart or the server `updatedAt` is strictly greater. -/
def mergeItems (now : Nat) (st : Store) (serverItems : List LocalItem) : Store :=
  if serverItems.length = 0 then st
  else
    let localItems := serverItems.map (fun s => tableGet (·.id) st.items s.id)
    let itemsToUpdate := (serverItems.zip localItems).filterMap (fun sl =>
      match sl.2 with
      | none => some { sl.1 with syncStatus := .synced, lastSyncedAt := some now }
      | some l =>
        if l.updatedAt < sl.1.updatedAt then
          some { sl.1 with syncStatus := .synced, lastSyncedAt := some now }
        else none)
    { st with items := bulkPut (·.id) st.items itemsToUpdate }

/-- `SyncEngine.mergeCollections`. -/
def mergeCollections (now : Nat) (st : Store) (serverCollections : List LocalCollection) : Store :=
  if serverCollections.length = 0 then st
  else
    let localCollections := serverCollections.map (fun s => tableGet (·.id) st.collections s.id)
    let collectionsToUpdate := (serverCollections.zip localCollections).filterMap (fun sl =>
      match sl.2 with
      | none => some { sl.1 with syncStatus := .synced, lastSyncedAt := some now }
      | some l =>
        if l.updatedAt < sl.1.updatedAt then
          some { sl.1 with syncStatus := .synced, lastSyncedAt := some now }
        else none)
    { st with collections := bulkPut (·.id) st.collections collectionsToUpdate }

/-- `SyncEngine.mergeTags`.  The TS condition is
`!localTag || (serverTag.updatedAt && localTag.updatedAt && serverTag.updatedAt > localTag.updatedAt)`:
when a local tag exists, the overwrite additionally requires both `updatedAt`
values to be truthy (nonzero).  The TS `else if (!localTag)` branch is dead
code (its guard is covered by the first condition) and contributes nothing. -/
def mergeTags (now : Nat) (st : Store) (serverTags : List LocalTag) : Store :=
  if serverTags.length = 0 then st
  else
    let localTags := serverTags.map (fun s => tableGet (·.id) st.tags s.id)
    let tagsToUpdate := (serverTags.zip localTags).filterMap (fun sl =>
      match sl.2 with
      | none => some { sl.1 with syncStatus := .synced, lastSyncedAt := some now }
      | some l =>
        if sl.1.updatedAt ≠ 0 ∧ l.updatedAt ≠ 0 ∧ l.updatedAt < sl.1.updatedAt then
          some { sl.1 with syncStatus := .synced, lastSyncedAt := some now }
        else none)
    { st with tags := bulkPut (·.id) st.tags tagsToUpdate }

/-- `SyncEngine.mergeItemTags` — insertion-only: a server link is taken only
when no local record of the `(itemId, tagId)` pair exists. -/
def mergeItemTags (st : Store) (serverItemTags : List LocalItemTag) : Store :=
  if serverItemTags.length = 0 then st
  else
    let localItemTags := serverItemTags.map (fun s => tableGet itemTagKey st.itemTags (itemTagKey s))
    let itemTagsToUpdate := (serverItemTags.zip localItemTags).filterMap (fun sl =>
      match sl.2 with
      | none => some { sl.1 with syncStatus := SyncStatus.synced }
      | some _ => none)
    { st with itemTags := bulkPut itemTagKey st.itemTags itemTagsToUpdate }

/-- `SyncEngine.pullServerChanges`.  A failed GET (`env.pullData = none`) is
caught and swallowed (`console.error`, no rethrow), leaving the store as it
was; a successful GET merges all four entity kinds in one transaction. -/
def pullServerChanges (st : Store) (env : SyncEnv) : Store :=
  match env.pullData with
  | none => st
  | some serverData =>
    mergeItemTags
      (mergeTags env.now
        (mergeCollections env.now
          (mergeItems env.now st serverData.items)
          serverData.collections)
        serverData.tags)
      serverData.itemTags

/-! ## Sync Orchestrator (db-sync.ts, `SyncEngine.sync`) -/

/-- Accumulator of the `for (const chunk of chunks)` loop in `SyncEngine.sync`:
the evolving store, the `totalSynced` counters, and the `errors` / `warnings`
lists. -/
structure PushState where
  store : Store
  itemsSynced : Nat := 0
  collectionsSynced : Nat := 0
  tagsSynced : Nat := 0
  itemsDeleted : Nat := 0
  collectionsDeleted : Nat := 0
  tagsDeleted : Nat := 0
  errors : List String := []
  warnings : List String := []
deriving Repr

/-- The `catch (chunkError)` arm of the chunk loop: record the error, mark the
chunk's entities `error`, and enqueue the chunk for retry. -/
def chunkFailure (opts : SyncOptions) (env : SyncEnv) (acc : PushState)
    (chunk : SyncPayload) (i : Nat) (msg : String) : PushState :=
  { acc with
    store := addChunkToRetryQueue opts (markAsError acc.store chunk msg) chunk msg
      env.now (env.uuids i)
    errors := acc.errors ++ ["Chunk sync failed: " ++ msg] }

/-- The conflict warning pushed when `result.conflicts` is present and nonempty. -/
def conflictWarning (cs : List SyncConflict) : String :=
  toString cs.length ++ " conflicts detected: " ++
    String.intercalate ", " (cs.map (fun c => c.entity ++ ":" ++ c.entityId))

/-- The body of the chunk loop in `SyncEngine.sync` for the chunk at index `i`:
transmit (outcome supplied by `env.responses i`), validate, apply the
acknowledgement and bump the counters on success, or run the failure arm. -/
def processChunk (opts : SyncOptions) (env : SyncEnv) (acc : PushState)
    (chunk : SyncPayload) (i : Nat) : PushState :=
  match env.responses i with
  | .error msg => chunkFailure opts env acc chunk i msg
  | .ok r =>
    if !validateServerResponse r then
      chunkFailure opts env acc chunk i "Invalid server response format"
    else
      match markAsSynced env.now acc.store r with
      | .error msg => chunkFailure opts env acc chunk i msg
      | .ok st' =>
        let syncedPart := (r.synced.getD ⟨none, none, none, none⟩)
        let deletedPart := (r.deleted.getD ⟨none, none, none⟩)
        { acc with
          store := st'
          itemsSynced := acc.itemsSynced + (syncedPart.items.getD []).length
          collectionsSynced := acc.collectionsSynced + (syncedPart.collections.getD []).length
          tagsSynced := acc.tagsSynced + (syncedPart.tags.getD []).length
          itemsDeleted := acc.itemsDeleted + (deletedPart.items.getD []).length
          collectionsDeleted := acc.collectionsDeleted + (deletedPart.collections.getD []).length
          tagsDeleted := acc.tagsDeleted + (deletedPart.tags.getD []).length
          warnings := acc.warnings ++
            match r.conflicts with
            | some cs => if 0 < cs.length then [conflictWarning cs] else []
            | none => [] }

/-- The chunk loop itself: chunks are sent strictly in order, and a chunk's
failure does not stop the loop. -/
def pushChunks (opts : SyncOptions) (env : SyncEnv) :
    List SyncPayload → Nat → PushState → PushState
  | [], _, acc => acc
  | chunk :: rest, i, acc =>
    pushChunks opts env rest (i + 1) (processChunk opts env acc chunk i)

/-- A `SyncResult` with the given success flag, all counters zero and the
given error list. -/
def zeroResult (success : Bool) (errors : List String) : SyncResult :=
  { success := success
    itemsSynced := 0, collectionsSynced := 0, tagsSynced := 0
    itemsDeleted := 0, collectionsDeleted := 0, tagsDeleted := 0
    errors := errors, warnings := [] }

/-- `SyncEngine.sync`.  `syncInProgress` is the engine's in-flight guard at
the moment of the call. -/
def syncRun (opts : SyncOptions) (syncInProgress : Bool) (st : Store)
    (env : SyncEnv) : SyncResult × Store :=
  if syncInProgress then
    (zeroResult false ["Sync already in progress"], st)
  else
    let st1 := processRetryQueue opts st env.now
    let payload := gatherPendingData st1
    if isPayloadEmpty payload then
      (zeroResult true [], pullServerChanges st1 env)
    else
      let st2 := markAsSyncing st1 payload
      let chunks := chunkPayload opts.chunkSize payload
      let ps := pushChunks opts env chunks 0 { store := st2 }
      let st3 := pullServerChanges ps.store env
      ({ success := ps.errors.isEmpty
         itemsSynced := ps.itemsSynced
         collectionsSynced := ps.collectionsSynced
         tagsSynced := ps.tagsSynced
         itemsDeleted := ps.itemsDeleted
         collectionsDeleted := ps.collectionsDeleted
         tagsDeleted := ps.tagsDeleted
         errors := ps.errors
         warnings := ps.warnings }, st3)

/-! ## Collection operations (src/hooks/use-collections.ts)

The hook-level `userId` guard ("User not authenticated") selects the store and
is outside the store model; the operations below act on an already-selected
per-user store.  `slugify` (src/lib/slugify.ts) performs Unicode normalization
and regex replacement that the claims never depend on, so it is passed in as
an abstract `String → String`. -/

/-- Result record of a collection operation (`{ success, error? }`). -/
structure OpResult where
  success : Bool
  error : Option String := none
deriving DecidableEq, Repr

/-- `updateCollection` (use-collections.ts): rename a non-default, non-deleted
collection, stamping it `pending` with a fresh `updatedAt`. -/
def updateCollection (slugifyFn : String → String) (st : Store) (id name : String)
    (now : Nat) : OpResult × Store :=
  let trimmedName := name.trim
  if trimmedName = "" then
    ({ success := false, error := some "Name is required" }, st)
  else
    match tableGet (·.id) st.collections id with
    | none => ({ success := false, error := some "Collection not found" }, st)
    | some existing =>
      if existing.isDeleted then
        ({ success := false, error := some "Collection not found" }, st)
      else if existing.isDefault then
        ({ success := false, error := some "Cannot rename default collection" }, st)
      else
        let newSlug := slugifyFn trimmedName
        ({ success := true },
          { st with
            collections := tableUpdate (·.id) st.collections id (fun c =>
              { c with
                name := trimmedName
                slug := newSlug
                syncStatus := .pending
                updatedAt := now }) })

/-- `deleteCollection` (use-collections.ts): soft-delete a non-default
collection and move its non-deleted items to the default collection, both in
one transaction. -/
def deleteCollection (st : Store) (id : String) (now : Nat) : OpResult × Store :=
  match tableGet (·.id) st.collections id with
  | none => ({ success := false, error := some "Collection not found" }, st)
  | some existing =>
    if existing.isDeleted then
      ({ success := false, error := some "Collection not found" }, st)
    else if existing.isDefault then
      ({ success := false, error := some "Cannot delete default collection" }, st)
    else
      match st.collections.find? (fun c => c.isDefault && !c.isDeleted) with
      | none => ({ success := false, error := some "Default collection not found" }, st)
      | some defaultCollection =>
        let itemsToMove := st.items.filter (fun it => it.collectionId == id && !it.isDeleted)
        ({ success := true },
          { st with
            items := itemsToMove.foldl (fun acc it =>
              tableUpdate (·.id) acc it.id (fun x =>
                { x with
                  collectionId := defaultCollection.id
                  syncStatus := .pending
                  updatedAt := now })) st.items
            collections := tableUpdate (·.id) st.collections id (fun c =>
              { c with
                isDeleted := true
                deletedAt := some now
                syncStatus := .pending
                updatedAt := now }) })

/-! ## Concrete fixtures used by counterexamples and witnesses -/

/-- A minimal item with the given id and collection. -/
def mkItem (id collectionId : String) (status : SyncStatus) (deleted : Bool)
    (updatedAt : Nat) : LocalItem :=
  { id := id, userId := "u", collectionId := collectionId, type := .bookmark
    title := "t", rawInput := "r", isRead := false, isFavorite := false
    syncStatus := status, isDeleted := deleted, createdAt := 0, updatedAt := updatedAt }

/-- A minimal collection with the given id. -/
def mkCollection (id : String) (isDefault : Bool) (status : SyncStatus)
    (deleted : Bool) (updatedAt : Nat) : LocalCollection :=
  { id := id, userId := "u", name := id, slug := id, isDefault := isDefault
    syncStatus := status, isDeleted := deleted, createdAt := 0, updatedAt := updatedAt }

/-- A minimal tag with the given id. -/
def mkTag (id : String) (status : SyncStatus) (deleted : Bool)
    (updatedAt : Nat) : LocalTag :=
  { id := id, userId := "u", name := id, slug := id
    syncStatus := status, isDeleted := deleted, createdAt := 0, updatedAt := updatedAt }

/-- A minimal item-tag link. -/
def mkLink (itemId tagId : String) (status : SyncStatus) : LocalItemTag :=
  { itemId := itemId, tagId := tagId, syncStatus := status }

/-- The store with all five tables empty. -/
def emptyStore : Store :=
  { items := [], collections := [], tags := [], itemTags := [], syncQueue := [] }

/-- An environment in which every chunk POST fails at the transport level and
the pull GET fails; used where the environment is irrelevant. -/
def deadEnv : SyncEnv :=
  { responses := fun _ => .error "Failed to fetch"
    pullData := none
    uuids := fun _ => "uuid"
    now := 0 }

/-! ## Fixtures and spec-side definitions used by the claim theorems -/

/-- The batch used to refute the claimed per-chunk size bound: two pending
items plus one pending collection, split with threshold 1. -/
def cexPayloadC2 : SyncPayload :=
  { items := [mkItem "i1" "c1" .pending false 1, mkItem "i2" "c1" .pending false 1]
    collections := [mkCollection "c1" false .pending false 1]
    tags := [], itemTags := [], deletions := emptyDeletions }

/-- The batch used for the C3 witness: two items and one tag, threshold 1. -/
def witPayloadC3 : SyncPayload :=
  { items := [mkItem "i1" "c1" .pending false 1, mkItem "i2" "c1" .pending false 1]
    collections := [], tags := [mkTag "t1" .pending false 1]
    itemTags := [], deletions := emptyDeletions }

/-- The batch used to refute C3 as stated: items `i1, i2`, one tag `t1`, and
the link `(i2, t1)`, split with threshold 1. -/
def cexPayloadC3 : SyncPayload :=
  { items := [mkItem "i1" "c1" .pending false 1, mkItem "i2" "c1" .pending false 1]
    collections := [], tags := [mkTag "t1" .pending false 1]
    itemTags := [mkLink "i2" "t1" .pending], deletions := emptyDeletions }

/-- The all-empty payload. -/
def emptyPayload : SyncPayload :=
  { items := [], collections := [], tags := [], itemTags := []
    deletions := emptyDeletions }

/-- The per-row outcome of one scheduler pass over a **due** row: dropped once
`retryCount` has reached `maxRetries`, otherwise `retryCount` is bumped and
`nextRetryAt` is recomputed from the **pre-increment** count. -/
def retryRule (opts : SyncOptions) (now : Nat) (e : SyncQueue) : Option SyncQueue :=
  if e.maxRetries ≤ e.retryCount then none
  else
    some { e with
      retryCount := e.retryCount + 1
      lastAttemptAt := some now
      nextRetryAt := some (now + calculateBackoff opts e.retryCount) }

/-- A due retry-queue row with `retryCount = 0`. -/
def cexRetryEntry : SyncQueue :=
  { id := "q1", operation := "create", entity := "item", entityId := "batch_sync"
    data := emptyPayload, retryCount := 0, maxRetries := 3
    nextRetryAt := some 0, createdAt := 0 }

/-- A due retry-queue row whose `retryCount` equals (but does not exceed) its
`maxRetries`. -/
def cexRetryEntryMax : SyncQueue :=
  { cexRetryEntry with id := "q2", retryCount := 3 }

/-- The seven acknowledgement array fields the specification requires: items,
collections, tags and item-tag pairs in the `synced` partition, and items,
collections and tags in the `deleted` partition. -/
def ackComplete (r : RawServerResponse) : Bool :=
  (match r.synced with
   | some s => s.items.isSome && s.collections.isSome && s.tags.isSome && s.itemTags.isSome
   | none => false) &&
  (match r.deleted with
   | some d => d.items.isSome && d.collections.isSome && d.tags.isSome
   | none => false)

/-- Whether the chunk loop reaches its success arm for a given transport
outcome: the POST must succeed, `validateServerResponse` must pass, and
`markAsSynced` must not throw (the latter needs `synced.itemTags`,
`deleted.collections` and `deleted.tags` to be present). -/
def chunkAccepted : Except String RawServerResponse → Bool
  | .error _ => false
  | .ok r =>
    validateServerResponse r &&
      (r.synced.getD ⟨none, none, none, none⟩).itemTags.isSome &&
      (r.deleted.getD ⟨none, none, none⟩).collections.isSome &&
      (r.deleted.getD ⟨none, none, none⟩).tags.isSome

/-- An acknowledgement that passes `validateServerResponse` but lacks the
`deleted.tags` array. -/
def c6Ack : RawServerResponse :=
  { success := some true
    synced := some ⟨some [], some [], some [], some []⟩
    deleted := some ⟨some [], some [], none⟩
    conflicts := none }

/-- An environment whose every chunk POST yields `c6Ack`. -/
def c6Env : SyncEnv :=
  { responses := fun _ => .ok c6Ack
    pullData := none
    uuids := fun _ => "uuid"
    now := 0 }

/-- A local tag whose `updatedAt` is 0 (falsy in JS). -/
def cexLocalTagZero : LocalTag := mkTag "t1" .pending false 0

/-- A server copy of the same tag with a strictly greater `updatedAt`. -/
def cexServerTag : LocalTag := mkTag "t1" .synced false 5

/-- C9 witness store: one row per id-keyed table. -/
def wStoreC9 : Store :=
  { emptyStore with
    items := [mkItem "i1" "c1" .pending false 5]
    collections := [mkCollection "c1" true .synced false 5]
    tags := [mkTag "t1" .pending false 5] }

/-- A structurally complete acknowledgement with empty id lists. -/
def wAckC9 : RawServerResponse :=
  { success := some true
    synced := some ⟨some [], some [], some [], some []⟩
    deleted := some ⟨some [], some [], some []⟩
    conflicts := none }

/-- C10 witness: the owner's default collection. -/
def wDefaultCol : LocalCollection := mkCollection "cdef" true .synced false 1

/-- C10 witness: a non-default collection about to be deleted. -/
def wDoomedCol : LocalCollection := mkCollection "cdel" false .pending false 1

/-- C10 witness store: two collections, two live items in the doomed
collection's orbit (one of them elsewhere) and one soft-deleted item. -/
def wStoreC10 : Store :=
  { emptyStore with
    collections := [wDefaultCol, wDoomedCol]
    items := [mkItem "i1" "cdel" .synced false 1, mkItem "i2" "cdef" .synced false 1,
              mkItem "i3" "cdel" .pending true 1] }

/-- The chunk list a non-rejected `sync()` call will transmit: empty when the
collected batch is empty (the push phase is skipped), otherwise the output of
the Batch Splitter on the batch. -/
def plannedChunks (opts : SyncOptions) (st : Store) (env : SyncEnv) : List SyncPayload :=
  let payload := gatherPendingData (processRetryQueue opts st env.now)
  if isPayloadEmpty payload then [] else chunkPayload opts.chunkSize payload

/-- The chunks of a chunk list, starting at transmission index `i`, whose
transport outcome is not accepted. -/
def failedChunksFrom (env : SyncEnv) : List SyncPayload → Nat → List SyncPayload
  | [], _ => []
  | c :: cs, i =>
    if chunkAccepted (env.responses i) then failedChunksFrom env cs (i + 1)
    else c :: failedChunksFrom env cs (i + 1)

/-- The acknowledgement that echoes exactly a chunk's content: every pushed
entity id appears in the `synced` partition and every pushed deletion id in
the `deleted` partition. -/
def echoAck (c : SyncPayload) : RawServerResponse :=
  { success := some true
    synced := some ⟨some (c.items.map (·.id)), some (c.collections.map (·.id)),
      some (c.tags.map (·.id)), some (c.itemTags.map itemTagKey)⟩
    deleted := some ⟨some c.deletions.itemIds, some c.deletions.collectionIds,
      some c.deletions.tagIds⟩
    conflicts := none }

/-- The store on which the C8 counterexample runs: a batch that exceeds the
chunk threshold but contains no items (two pending tags), plus one
soft-deleted pending item. -/
def cexStoreC8 : Store :=
  { emptyStore with
    items := [mkItem "i1" "c1" .pending true 1]
    tags := [mkTag "t1" .pending false 1, mkTag "t2" .pending false 1] }

/-- Chunk threshold 1 for the C8 counterexample. -/
def cexOptsC8 : SyncOptions := { chunkSize := 1, maxRetries := 3, retryDelayMs := 1000 }

/-- An environment that acknowledges, verbatim, every chunk the engine would
plan for the given store at the given time. -/
def echoEnv (opts : SyncOptions) (st : Store) (pull : Option SyncPayload)
    (uuids : Nat → String) (now : Nat) : SyncEnv :=
  { responses := fun i =>
      match (if isPayloadEmpty (gatherPendingData (processRetryQueue opts st now)) then []
        else chunkPayload opts.chunkSize
          (gatherPendingData (processRetryQueue opts st now)))[i]? with
      | some c => .ok (echoAck c)
      | none => .error "Failed to fetch"
    pullData := pull
    uuids := uuids
    now := now }

/-- No entity of the store is in a `pending` or `error` state. -/
abbrev storeAllGood (st : Store) : Prop :=
  (∀ e ∈ st.items, isPendingOrError e.syncStatus = false) ∧
  (∀ e ∈ st.collections, isPendingOrError e.syncStatus = false) ∧
  (∀ e ∈ st.tags, isPendingOrError e.syncStatus = false) ∧
  (∀ e ∈ st.itemTags, isPendingOrError e.syncStatus = false)

/-- Witness store for the second-sync theorem: one pending item. -/
def wStoreC8 : Store :=
  { emptyStore with items := [mkItem "i1" "c1" .pending false 5] }

/-! ## Batch Splitter lemmas -/

theorem length_items_le_of_mem_chunkPayloadGo {cs : Nat} {p : SyncPayload} :
    ∀ {fuel i : Nat} {c : SyncPayload}, c ∈ chunkPayloadGo cs p fuel i →
      c.items.length ≤ cs := by
  intro fuel
  induction fuel with
  | zero => intro i c hc; simp [chunkPayloadGo] at hc
  | succ fuel ih =>
    intro i c hc
    simp only [chunkPayloadGo] at hc
    split at hc
    · rcases List.mem_cons.mp hc with rfl | hc
      · simp [List.length_take_le]
      · exact ih hc
    · simp at hc

theorem join_chunkPayloadGo {cs : Nat} (p : SyncPayload) :
    ∀ (fuel i : Nat), p.items.length ≤ i + fuel * cs →
      ((chunkPayloadGo cs p fuel i).map SyncPayload.items).flatten = p.items.drop i := by
  intro fuel
  induction fuel with
  | zero =>
    intro i h
    simp only [Nat.zero_mul, Nat.add_zero] at h
    simp [chunkPayloadGo, List.drop_eq_nil_of_le h]
  | succ fuel ih =>
    intro i h
    simp only [chunkPayloadGo]
    split
    · have hrec := ih (i + cs) (by
        calc p.items.length ≤ i + (fuel + 1) * cs := h
        _ = i + cs + fuel * cs := by ring)
      simp only [List.map_cons, List.flatten_cons, hrec]
      rw [← List.drop_drop, List.take_append_drop]
    · next hni =>
      have : p.items.length ≤ i := Nat.le_of_not_lt hni
      simp [List.drop_eq_nil_of_le this]

theorem chunkPayloadGo_tail_empty {cs : Nat} {p : SyncPayload} :
    ∀ {fuel i : Nat}, i ≠ 0 → ∀ {c : SyncPayload}, c ∈ chunkPayloadGo cs p fuel i →
      c.collections = [] ∧ c.tags = [] ∧ c.itemTags = [] ∧ c.deletions = emptyDeletions := by
  intro fuel
  induction fuel with
  | zero => intro i _ c hc; simp [chunkPayloadGo] at hc
  | succ fuel ih =>
    intro i hi c hc
    simp only [chunkPayloadGo] at hc
    split at hc
    · rcases List.mem_cons.mp hc with rfl | hc
      · simp [if_neg hi]
      · exact ih (by omega) hc
    · simp at hc

theorem chunkPayload_eq_cons_of_items_ne_nil {cs : Nat} {p : SyncPayload}
    (hs : cs < totalSize p) (hi : p.items ≠ []) :
    chunkPayload cs p =
      { items := p.items.take cs, collections := p.collections, tags := p.tags
        itemTags := p.itemTags, deletions := p.deletions } ::
      chunkPayloadGo cs p (p.items.length - 1) cs := by
  have hlen : 0 < p.items.length := List.length_pos.mpr hi
  unfold chunkPayload
  rw [if_neg (by omega)]
  obtain ⟨fuel, hfuel⟩ : ∃ fuel, p.items.length = fuel + 1 :=
    ⟨p.items.length - 1, by omega⟩
  rw [hfuel]
  simp only [chunkPayloadGo, if_pos (by omega : 0 < p.items.length)]
  simp [hfuel]

/-! # Claim theorems -/

/-! ### C2 — chunk-size bound of the Batch Splitter -/

/-- C2 counterexample: with threshold `N = 1` and a batch of two items and one
collection, the splitter's first chunk holds one item **and** the collection,
so its total entity count is `2 > N`; the claimed bound
"each chunk's sum of entity counts does not exceed N" is false. -/
theorem chunkPayload_first_chunk_exceeds_threshold :
    (chunkPayload 1 cexPayloadC2).map totalSize = [2, 1] ∧
      ¬ (∀ c ∈ chunkPayload 1 cexPayloadC2, totalSize c ≤ 1) := by
  constructor
  · rfl
  · intro h
    have := h ((chunkPayload 1 cexPayloadC2).get ⟨0, by decide⟩) (by decide)
    revert this
    decide

/-- C2 amended: every chunk holds at most `N` **items** (the first chunk may
exceed `N` in total because it additionally carries all collections, tags and
item-tag links); a batch whose total count is at most `N` is returned as the
single chunk, unchanged; and the chunks' item lists concatenate, in order, to
the batch's item list. -/
theorem chunkPayload_item_bound_and_small_batch (cs : Nat) (p : SyncPayload)
    (hcs : 0 < cs) :
    (∀ c ∈ chunkPayload cs p, c.items.length ≤ cs) ∧
      (totalSize p ≤ cs → chunkPayload cs p = [p]) ∧
      ((chunkPayload cs p).map SyncPayload.items).flatten = p.items := by
  refine ⟨?_, ?_, ?_⟩
  · intro c hc
    unfold chunkPayload at hc
    split at hc
    · next hsmall =>
      rcases List.mem_singleton.mp hc with rfl
      have : c.items.length ≤ totalSize c := by unfold totalSize; omega
      omega
    · exact length_items_le_of_mem_chunkPayloadGo hc
  · intro hsmall
    unfold chunkPayload
    rw [if_pos hsmall]
  · unfold chunkPayload
    split
    · simp
    · have := @join_chunkPayloadGo cs p p.items.length 0
        (by
          have h2 : p.items.length * 1 ≤ p.items.length * cs :=
            Nat.mul_le_mul_left _ hcs
          omega)
      simpa using this

/-- C2 amended, witness at a concrete input: threshold 2, batch of three items. -/
theorem chunkPayload_item_bound_witness :
    (0 : Nat) < 2 ∧
      ((∀ c ∈ chunkPayload 2
          { items := [mkItem "a" "c" .pending false 1, mkItem "b" "c" .pending false 1,
                      mkItem "d" "c" .pending false 1]
            collections := [], tags := [], itemTags := [], deletions := emptyDeletions },
          c.items.length ≤ 2) ∧
        (totalSize
          { items := [mkItem "a" "c" .pending false 1, mkItem "b" "c" .pending false 1,
                      mkItem "d" "c" .pending false 1]
            collections := [], tags := [], itemTags := [], deletions := emptyDeletions } ≤ 2 →
          chunkPayload 2
            { items := [mkItem "a" "c" .pending false 1, mkItem "b" "c" .pending false 1,
                        mkItem "d" "c" .pending false 1]
              collections := [], tags := [], itemTags := [], deletions := emptyDeletions } =
            [{ items := [mkItem "a" "c" .pending false 1, mkItem "b" "c" .pending false 1,
                         mkItem "d" "c" .pending false 1]
               collections := [], tags := [], itemTags := [], deletions := emptyDeletions }]) ∧
        ((chunkPayload 2
            { items := [mkItem "a" "c" .pending false 1, mkItem "b" "c" .pending false 1,
                        mkItem "d" "c" .pending false 1]
              collections := [], tags := [], itemTags := [], deletions := emptyDeletions }).map
            SyncPayload.items).flatten =
          [mkItem "a" "c" .pending false 1, mkItem "b" "c" .pending false 1,
           mkItem "d" "c" .pending false 1]) :=
  ⟨by decide, chunkPayload_item_bound_and_small_batch 2 _ (by decide)⟩

/-! ### C3 — contents of the first and the subsequent chunks -/

/-- C3 amended: when the batch is split, every chunk after the first carries
only items — its collections, tags, item-tag links and deletions are all
empty — while the first chunk carries the batch's collections, tags,
deletions **and all of its item-tag links** (not just links of its own items),
together with the first `N` items. -/
theorem chunkPayload_split_first_chunk_only (cs : Nat) (p : SyncPayload)
    (hcs : 0 < cs) (hs : cs < totalSize p) :
    (∀ c ∈ (chunkPayload cs p).tail,
        c.collections = [] ∧ c.tags = [] ∧ c.itemTags = [] ∧
          c.deletions = emptyDeletions) ∧
      (∀ c, (chunkPayload cs p).head? = some c →
        c.items = p.items.take cs ∧ c.collections = p.collections ∧
          c.tags = p.tags ∧ c.itemTags = p.itemTags ∧
          c.deletions = p.deletions) := by
  by_cases hi : p.items = []
  · have hchunks : chunkPayload cs p = [] := by
      unfold chunkPayload
      rw [if_neg (by omega)]
      simp [hi, chunkPayloadGo]
    rw [hchunks]
    constructor
    · intro c hc; simp at hc
    · intro c hc; simp at hc
  · rw [chunkPayload_eq_cons_of_items_ne_nil hs hi]
    constructor
    · intro c hc
      exact chunkPayloadGo_tail_empty (by omega) hc
    · intro c hc
      cases hc
      exact ⟨rfl, rfl, rfl, rfl, rfl⟩

/-- C3 amended, witness at a concrete split batch. -/
theorem chunkPayload_split_first_chunk_only_witness :
    ((0 : Nat) < 1 ∧ 1 < totalSize witPayloadC3) ∧
      ((∀ c ∈ (chunkPayload 1 witPayloadC3).tail,
          c.collections = [] ∧ c.tags = [] ∧ c.itemTags = [] ∧
            c.deletions = emptyDeletions) ∧
        (∀ c, (chunkPayload 1 witPayloadC3).head? = some c →
          c.items = witPayloadC3.items.take 1 ∧ c.collections = witPayloadC3.collections ∧
            c.tags = witPayloadC3.tags ∧ c.itemTags = witPayloadC3.itemTags ∧
            c.deletions = witPayloadC3.deletions)) :=
  ⟨⟨by decide, by decide⟩,
    chunkPayload_split_first_chunk_only 1 witPayloadC3 (by decide) (by decide)⟩

/-- C3 counterexample: the claim predicts that the second chunk (which carries
item `i2`) also carries the link `(i2, t1)`, since tag `t1` was transmitted in
the first chunk; the code gives every chunk after the first an **empty** link
list (all links travel with the first chunk). -/
theorem chunkPayload_later_chunks_lack_links :
    (chunkPayload 1 cexPayloadC3).length = 2 ∧
      ((chunkPayload 1 cexPayloadC3)[1]?).map SyncPayload.itemTags = some [] ∧
      cexPayloadC3.itemTags.filter (fun l =>
        ((((chunkPayload 1 cexPayloadC3)[1]?).map SyncPayload.items |>.getD []).map
            LocalItem.id).contains l.itemId &&
        ((((chunkPayload 1 cexPayloadC3)[0]?).map SyncPayload.tags |>.getD []).map
            LocalTag.id).contains l.tagId) =
        [mkLink "i2" "t1" .pending] ∧
      [mkLink "i2" "t1" .pending] ≠ ([] : List LocalItemTag) := by
  refine ⟨rfl, rfl, rfl, by decide⟩

/-! ### C5 — the singleton-run guard -/

/-- C5 amended: a `sync()` call made while another cycle is in flight returns
immediately with `success = false`, all six counts zero, exactly one error
`"Sync already in progress"` (capital S) and no warnings, and leaves the store
untouched. -/
theorem syncRun_already_in_progress (opts : SyncOptions) (st : Store) (env : SyncEnv) :
    (syncRun opts true st env).1.success = false ∧
      (syncRun opts true st env).1.itemsSynced = 0 ∧
      (syncRun opts true st env).1.collectionsSynced = 0 ∧
      (syncRun opts true st env).1.tagsSynced = 0 ∧
      (syncRun opts true st env).1.itemsDeleted = 0 ∧
      (syncRun opts true st env).1.collectionsDeleted = 0 ∧
      (syncRun opts true st env).1.tagsDeleted = 0 ∧
      (syncRun opts true st env).1.errors = ["Sync already in progress"] ∧
      (syncRun opts true st env).1.warnings = [] ∧
      (syncRun opts true st env).2 = st :=
  ⟨rfl, rfl, rfl, rfl, rfl, rfl, rfl, rfl, rfl, rfl⟩

/-- C5 counterexample: the single error of a rejected concurrent call is
`"Sync already in progress"`, which is not the claimed string
`"sync already in progress"` (the code capitalizes the first word). -/
theorem syncRun_in_progress_error_capitalized :
    (syncRun DEFAULT_SYNC_OPTIONS true emptyStore deadEnv).1.errors =
      ["Sync already in progress"] ∧
      (syncRun DEFAULT_SYNC_OPTIONS true emptyStore deadEnv).1.errors ≠
        ["sync already in progress"] := by
  refine ⟨rfl, by decide⟩

/-! ### C4 — retry-queue exponential backoff -/

theorem filter_eq_filterMap_guard (p : α → Bool) (l : List α) :
    l.filter p = l.filterMap (fun a => if p a then some a else none) := by
  induction l with
  | nil => rfl
  | cons a l ih =>
    by_cases h : p a <;> simp [List.filter_cons, List.filterMap_cons, h, ih]

theorem map_eq_filterMap_some (g : α → β) (l : List α) :
    l.map g = l.filterMap (fun a => some (g a)) := by
  induction l with
  | nil => rfl
  | cons a l ih => simp [List.filterMap_cons, ih]

theorem filterMap_congr_mem {f g : α → Option β} :
    ∀ {l : List α}, (∀ a ∈ l, f a = g a) → l.filterMap f = l.filterMap g := by
  intro l
  induction l with
  | nil => intro _; rfl
  | cons a l ih =>
    intro h
    simp only [List.filterMap_cons, h a (List.mem_cons_self a l),
      ih (fun b hb => h b (List.mem_cons_of_mem a hb))]

/-- Keys of a key-preserving `filterMap` form a sublist of the original keys. -/
theorem map_key_filterMap_sublist (key : α → κ) (F : α → Option α)
    (hF : ∀ a b, F a = some b → key b = key a) :
    ∀ l : List α, ((l.filterMap F).map key).Sublist (l.map key) := by
  intro l
  induction l with
  | nil => simp
  | cons a l ih =>
    rw [List.filterMap_cons]
    cases hFa : F a with
    | none =>
      exact ih.trans (List.sublist_cons_self (key a) (l.map key))
    | some b =>
      rw [List.map_cons, List.map_cons, hF a b hFa]
      exact ih.cons₂ (key a)

/-- The `for (const item of retryItems)` loop of `processRetryQueue`, run over
rows `R` of a queue `q` with pairwise-distinct ids, touches each row of `q` at
most once, so it collapses to a single pointwise pass over `q`. -/
theorem foldl_retryStep_eq_filterMap (opts : SyncOptions) (now : Nat) :
    ∀ (R q : List SyncQueue), (q.map (·.id)).Nodup → (R.map (·.id)).Nodup →
      (∀ r ∈ R, r ∈ q) →
      R.foldl (retryStep opts now) q =
        q.filterMap (fun e =>
          if (R.map (·.id)).contains e.id then retryRule opts now e else some e) := by
  intro R
  induction R with
  | nil =>
    intro q _ _ _
    simp
  | cons r R ih =>
    intro q hq hR hmem
    have hrq : r ∈ q := hmem r (List.mem_cons_self r R)
    have hRid : ¬ r.id ∈ R.map (·.id) := (List.nodup_cons.mp hR).1
    have hRnd : (R.map (·.id)).Nodup := (List.nodup_cons.mp hR).2
    -- one loop iteration, expressed as a pointwise pass over the current queue
    have hstep : retryStep opts now q r =
        q.filterMap (fun e =>
          if e.id = r.id then retryRule opts now e else some e) := by
      unfold retryStep
      by_cases hdrop : r.maxRetries ≤ r.retryCount
      · rw [if_pos hdrop, filter_eq_filterMap_guard]
        refine filterMap_congr_mem (fun e he => ?_)
        by_cases hid : e.id = r.id
        · have he' : e = r := List.inj_on_of_nodup_map hq he hrq hid
          subst he'
          simp [hid, retryRule, hdrop]
        · simp [hid]
      · rw [if_neg hdrop]
        unfold tableUpdate
        rw [map_eq_filterMap_some]
        refine filterMap_congr_mem (fun e he => ?_)
        by_cases hid : e.id = r.id
        · have he' : e = r := List.inj_on_of_nodup_map hq he hrq hid
          subst he'
          simp [hid, retryRule, hdrop]
        · simp [hid]
    have hFkey : ∀ a b : SyncQueue,
        (if a.id = r.id then retryRule opts now a else some a) = some b →
          b.id = a.id := by
      intro a b hab
      by_cases hid : a.id = r.id
      · rw [if_pos hid] at hab
        unfold retryRule at hab
        split at hab
        · cases hab
        · cases hab; rfl
      · rw [if_neg hid] at hab
        cases hab; rfl
    rw [List.foldl_cons, hstep]
    have hq' : ((q.filterMap (fun e =>
        if e.id = r.id then retryRule opts now e else some e)).map (·.id)).Nodup :=
      (map_key_filterMap_sublist (·.id) _ hFkey q).nodup hq
    have hmem' : ∀ r' ∈ R, r' ∈ q.filterMap (fun e =>
        if e.id = r.id then retryRule opts now e else some e) := by
      intro r' hr'
      have hr'q : r' ∈ q := hmem r' (List.mem_cons_of_mem r hr')
      have hid : r'.id ≠ r.id := by
        intro hcontra
        exact hRid (hcontra ▸ List.mem_map_of_mem (·.id) hr')
      exact List.mem_filterMap.mpr ⟨r', hr'q, by rw [if_neg hid]⟩
    rw [ih _ hq' hRnd hmem', List.filterMap_filterMap]
    refine filterMap_congr_mem (fun e he => ?_)
    by_cases hid : e.id = r.id
    · have he' : e = r := List.inj_on_of_nodup_map hq he hrq hid
      subst he'
      by_cases hdrop : e.maxRetries ≤ e.retryCount
      · simp [retryRule, hdrop, List.contains_cons]
      · simp [retryRule, hdrop, List.contains_cons]
        intro x hx hxe
        exact hRid (hxe ▸ List.mem_map_of_mem (·.id) hx)
    · simp [hid, List.contains_cons]

/-- C4 amended: a failed chunk's first retry entry is created with
`retryCount = 0` and `nextRetryAt = now + baseDelay`; on each scheduler pass a
due entry with `retryCount < maxRetries` has `retryCount` incremented and
`nextRetryAt` recomputed as `now + baseDelay * 2^retryCount` using the
**pre-increment** count (so the successive deltas are `baseDelay, baseDelay,
2*baseDelay, 4*baseDelay, ...`), and a due entry is dropped as soon as
`retryCount` has **reached** `maxRetries` (not only once it exceeds it). -/
theorem retry_backoff_schedule (opts : SyncOptions) (st : Store)
    (chunk : SyncPayload) (msg uid : String) (now : Nat)
    (hN : (st.syncQueue.map (·.id)).Nodup) :
    (addChunkToRetryQueue opts st chunk msg now uid).syncQueue.map
        (fun e => (e.retryCount, e.nextRetryAt)) =
      st.syncQueue.map (fun e => (e.retryCount, e.nextRetryAt)) ++
        [(0, some (now + opts.retryDelayMs))] ∧
      (processRetryQueue opts st now).syncQueue =
        st.syncQueue.filterMap (fun e =>
          if retryDue now e then retryRule opts now e else some e) := by
  constructor
  · simp [addChunkToRetryQueue]
  · have hnd : ((st.syncQueue.filter (retryDue now)).map (·.id)).Nodup :=
      ((List.filter_sublist st.syncQueue).map (·.id)).nodup hN
    have hmem : ∀ r ∈ st.syncQueue.filter (retryDue now), r ∈ st.syncQueue :=
      fun r hr => List.mem_of_mem_filter hr
    show (st.syncQueue.filter (retryDue now)).foldl (retryStep opts now) st.syncQueue = _
    rw [foldl_retryStep_eq_filterMap opts now _ _ hN hnd hmem]
    refine filterMap_congr_mem (fun e he => ?_)
    by_cases hdue : retryDue now e
    · have hc : e.id ∈ (st.syncQueue.filter (retryDue now)).map (·.id) :=
        List.mem_map_of_mem (·.id) (List.mem_filter.mpr ⟨he, hdue⟩)
      simp [hdue, hc]
    · have hc : ¬ e.id ∈ (st.syncQueue.filter (retryDue now)).map (·.id) := by
        intro hcon
        rcases List.mem_map.mp hcon with ⟨r, hrf, hrid⟩
        have hr : r ∈ st.syncQueue := List.mem_of_mem_filter hrf
        have hre : r = e := List.inj_on_of_nodup_map hN hr he hrid
        subst hre
        exact hdue (List.of_mem_filter hrf)
      simp [hdue, hc]

/-- C4 counterexample: (1) a due entry with `retryCount = 0` and
`baseDelay = 1000` processed at `now = 10` gets `nextRetryAt = 1010`
(`now + baseDelay * 2^0`, the pre-increment count), not the claimed
`now + baseDelay * 2^1 = 2010`; (2) a due entry with
`retryCount = maxRetries = 3` — which does **not** exceed `maxRetries` — is
already dropped from the queue. -/
theorem processRetryQueue_backoff_cex :
    ((processRetryQueue DEFAULT_SYNC_OPTIONS
          { emptyStore with syncQueue := [cexRetryEntry] } 10).syncQueue.map
        (fun e => e.nextRetryAt)) = [some 1010] ∧
      (1010 : Nat) ≠ 10 + 1000 * 2 ^ 1 ∧
      (processRetryQueue DEFAULT_SYNC_OPTIONS
          { emptyStore with syncQueue := [cexRetryEntryMax] } 10).syncQueue = [] ∧
      ¬ cexRetryEntryMax.maxRetries < cexRetryEntryMax.retryCount := by
  refine ⟨rfl, by decide, rfl, by decide⟩

set_option maxRecDepth 4000 in
/-- C4 amended, witness at a concrete queue of one due entry. -/
theorem retry_backoff_schedule_witness :
    ((({ emptyStore with syncQueue := [cexRetryEntry] } : Store).syncQueue.map
        (·.id)).Nodup) ∧
      ((addChunkToRetryQueue DEFAULT_SYNC_OPTIONS
            { emptyStore with syncQueue := [cexRetryEntry] } emptyPayload "m" 10
            "u").syncQueue.map (fun e => (e.retryCount, e.nextRetryAt)) =
        ({ emptyStore with syncQueue := [cexRetryEntry] } : Store).syncQueue.map
            (fun e => (e.retryCount, e.nextRetryAt)) ++
          [(0, some (10 + DEFAULT_SYNC_OPTIONS.retryDelayMs))] ∧
        (processRetryQueue DEFAULT_SYNC_OPTIONS
            { emptyStore with syncQueue := [cexRetryEntry] } 10).syncQueue =
          ({ emptyStore with syncQueue := [cexRetryEntry] } : Store).syncQueue.filterMap
            (fun e =>
              if retryDue 10 e then retryRule DEFAULT_SYNC_OPTIONS 10 e else some e)) :=
  ⟨by decide,
    retry_backoff_schedule DEFAULT_SYNC_OPTIONS
      { emptyStore with syncQueue := [cexRetryEntry] } emptyPayload "m" "u" 10
      (by decide)⟩

/-! ### C6 — structural validation of acknowledgements -/

/-- C6: a chunk's acknowledgement is accepted only if it carries, for the
`synced` partition, arrays of item, collection and tag identifiers and an
array of item-tag pairs, and, for the `deleted` partition, arrays of item,
collection and tag identifiers; an acknowledgement missing any of these seven
array fields sends the chunk through the failure arm, which marks the chunk's
entities `error` and enqueues the chunk for retry.  (Four of the fields are
checked by `validateServerResponse`; the other three make `markAsSynced`
throw, which lands in the same `catch`.) -/
theorem ack_requires_all_array_fields (opts : SyncOptions) (env : SyncEnv)
    (acc : PushState) (chunk : SyncPayload) (i : Nat) (r : RawServerResponse)
    (hresp : env.responses i = .ok r) :
    (chunkAccepted (.ok r) = true → ackComplete r = true) ∧
      (ackComplete r = false →
        ∃ msg, processChunk opts env acc chunk i =
          { acc with
            store := addChunkToRetryQueue opts (markAsError acc.store chunk msg)
              chunk msg env.now (env.uuids i)
            errors := acc.errors ++ ["Chunk sync failed: " ++ msg] }) := by
  constructor
  · intro hacc
    rcases r with ⟨osucc, osyn, odel, oconf⟩
    cases osucc <;> cases osyn <;> cases odel <;>
      simp_all [chunkAccepted, validateServerResponse, ackComplete]
  · intro hcomp
    by_cases hv : validateServerResponse r = true
    · refine ⟨"TypeError: Cannot read properties of undefined", ?_⟩
      have hms : markAsSynced env.now acc.store r =
          .error "TypeError: Cannot read properties of undefined" := by
        rcases r with ⟨osucc, osyn, odel, oconf⟩
        rcases osyn with _ | s
        · simp [validateServerResponse] at hv
        rcases odel with _ | d
        · rcases osucc with _ | b <;> simp [validateServerResponse] at hv
        rcases osucc with _ | b
        · simp [validateServerResponse] at hv
        rcases hsit : s.itemTags with _ | sit
        · simp [markAsSynced, hsit]
        rcases hdc : d.collections with _ | dc
        · simp [markAsSynced, hsit, hdc]
        rcases hdt : d.tags with _ | dt
        · simp [markAsSynced, hsit, hdc, hdt]
        exfalso
        simp [ackComplete, validateServerResponse, hsit, hdc, hdt] at hcomp hv
        simp_all
      unfold processChunk
      rw [hresp]
      dsimp only
      rw [if_neg (by simp [hv]), hms]
      rfl
    · refine ⟨"Invalid server response format", ?_⟩
      have hvf : validateServerResponse r = false := by
        cases hb : validateServerResponse r
        · rfl
        · exact absurd hb hv
      unfold processChunk
      rw [hresp]
      dsimp only
      rw [if_pos (by simp [hvf])]
      rfl

/-- C6 witness: `c6Ack` passes the shape validator but lacks `deleted.tags`,
so it is not complete and its chunk goes through the failure arm. -/
theorem ack_requires_all_array_fields_witness :
    (c6Env.responses 0 = .ok c6Ack) ∧
      ((chunkAccepted (.ok c6Ack) = true → ackComplete c6Ack = true) ∧
        (ackComplete c6Ack = false →
          ∃ msg, processChunk DEFAULT_SYNC_OPTIONS c6Env { store := emptyStore }
              emptyPayload 0 =
            { ({ store := emptyStore } : PushState) with
              store := addChunkToRetryQueue DEFAULT_SYNC_OPTIONS
                (markAsError emptyStore emptyPayload msg) emptyPayload msg
                c6Env.now (c6Env.uuids 0)
              errors := [] ++ ["Chunk sync failed: " ++ msg] })) :=
  ⟨rfl, ack_requires_all_array_fields DEFAULT_SYNC_OPTIONS c6Env
    { store := emptyStore } emptyPayload 0 c6Ack rfl⟩


/-! ## Dexie `put` / `bulkPut` lemmas -/

theorem mem_putByKey [DecidableEq κ] {key : α → κ} {l : List α} {x e : α}
    (he : e ∈ putByKey key l x) : e ∈ l ∨ e = x := by
  unfold putByKey at he
  split at he
  · rcases List.mem_map.mp he with ⟨e0, he0, rfl⟩
    by_cases h : key e0 = key x
    · right; simp [h]
    · left; simpa [h] using he0
  · rcases List.mem_append.mp he with h | h
    · exact Or.inl h
    · exact Or.inr (List.mem_singleton.mp h)

theorem putByKey_key_stable [DecidableEq κ] {key : α → κ} {l : List α} {x e : α}
    {k : κ} (hk : key x ≠ k) :
    (e ∈ putByKey key l x ∧ key e = k) ↔ (e ∈ l ∧ key e = k) := by
  constructor
  · rintro ⟨he, hke⟩
    refine ⟨?_, hke⟩
    rcases mem_putByKey he with h | rfl
    · exact h
    · exact absurd hke hk
  · rintro ⟨he, hke⟩
    refine ⟨?_, hke⟩
    unfold putByKey
    split
    · exact List.mem_map.mpr ⟨e, he, by rw [if_neg (by rw [hke]; exact fun h => hk h.symm)]⟩
    · exact List.mem_append_left _ he

theorem putByKey_self_key_eq [DecidableEq κ] {key : α → κ} {l : List α} {x : α} :
    ∀ e ∈ putByKey key l x, key e = key x → e = x := by
  intro e he hke
  unfold putByKey at he
  split at he
  · rcases List.mem_map.mp he with ⟨e0, he0, rfl⟩
    by_cases h : key e0 = key x
    · simp [h]
    · rw [if_neg h] at hke ⊢
      exact absurd hke h
  · next hany =>
    rcases List.mem_append.mp he with h | h
    · exfalso
      rw [List.any_eq_true] at hany
      push_neg at hany
      exact hany e h (decide_eq_true hke)
    · exact List.mem_singleton.mp h

theorem exists_mem_putByKey_key [DecidableEq κ] {key : α → κ} (l : List α) (x : α) :
    ∃ e ∈ putByKey key l x, key e = key x := by
  unfold putByKey
  split
  · next hany =>
    rcases List.any_eq_true.mp hany with ⟨e0, he0, hke⟩
    refine ⟨x, List.mem_map.mpr ⟨e0, he0, ?_⟩, rfl⟩
    rw [if_pos (by simpa using hke)]
  · exact ⟨x, List.mem_append_right _ (List.mem_singleton.mpr rfl), rfl⟩

theorem exists_mem_putByKey_key_of_exists [DecidableEq κ] {key : α → κ}
    {l : List α} {k : κ} (x : α) (h : ∃ e ∈ l, key e = k) :
    ∃ e ∈ putByKey key l x, key e = k := by
  rcases h with ⟨e0, he0, hke⟩
  unfold putByKey
  split
  · by_cases hx : key e0 = key x
    · exact ⟨x, List.mem_map.mpr ⟨e0, he0, by rw [if_pos hx]⟩, by rw [← hx, hke]⟩
    · exact ⟨e0, List.mem_map.mpr ⟨e0, he0, by rw [if_neg hx]⟩, hke⟩
  · exact ⟨e0, List.mem_append_left _ he0, hke⟩

theorem mem_bulkPut [DecidableEq κ] {key : α → κ} :
    ∀ {u l : List α} {e : α}, e ∈ bulkPut key l u → e ∈ l ∨ e ∈ u := by
  intro u
  induction u with
  | nil => intro l e he; exact Or.inl he
  | cons z u ih =>
    intro l e he
    have he2 : e ∈ bulkPut key (putByKey key l z) u := he
    rcases ih he2 with h | h
    · rcases mem_putByKey h with h' | hez
      · exact Or.inl h'
      · exact Or.inr (by rw [hez]; exact List.mem_cons_self z u)
    · exact Or.inr (List.mem_cons_of_mem z h)

theorem bulkPut_key_stable [DecidableEq κ] {key : α → κ} :
    ∀ {u l : List α} {e : α} {k : κ}, ¬ k ∈ u.map key →
      ((e ∈ bulkPut key l u ∧ key e = k) ↔ (e ∈ l ∧ key e = k)) := by
  intro u
  induction u with
  | nil => intro l e k _; exact Iff.rfl
  | cons z u ih =>
    intro l e k hk
    have hkz : key z ≠ k := by
      intro h
      exact hk (h ▸ List.mem_map_of_mem key (List.mem_cons_self z u))
    have hku : ¬ k ∈ u.map key := by
      intro h
      exact hk (by simpa [List.map_cons] using List.mem_cons_of_mem (key z) h)
    exact (ih hku).trans (putByKey_key_stable hkz)

theorem exists_mem_bulkPut_key_of_exists [DecidableEq κ] {key : α → κ} :
    ∀ {u l : List α} {k : κ}, (∃ e ∈ l, key e = k) →
      ∃ e ∈ bulkPut key l u, key e = k := by
  intro u
  induction u with
  | nil => intro l k h; exact h
  | cons z u ih =>
    intro l k h
    exact ih (exists_mem_putByKey_key_of_exists z h)

theorem bulkPut_key_eq [DecidableEq κ] {key : α → κ} :
    ∀ {u l : List α} {x : α}, x ∈ u → (u.map key).Nodup →
      ∀ e ∈ bulkPut key l u, key e = key x → e = x := by
  intro u
  induction u with
  | nil => intro l x hx; exact absurd hx (List.not_mem_nil x)
  | cons z u ih =>
    intro l x hx hu e he hke
    have huz : ¬ key z ∈ u.map key := (List.nodup_cons.mp hu).1
    have hun : (u.map key).Nodup := (List.nodup_cons.mp hu).2
    rcases List.mem_cons.mp hx with rfl | hx'
    · have hkx : ¬ key x ∈ u.map key := huz
      have hst : (e ∈ bulkPut key (putByKey key l x) u ∧ key e = key x) ↔
          (e ∈ putByKey key l x ∧ key e = key x) := bulkPut_key_stable hkx
      have := hst.mp ⟨he, hke⟩
      exact putByKey_self_key_eq e this.1 this.2
    · exact ih hx' hun e he hke

theorem mem_bulkPut_of_mem [DecidableEq κ] {key : α → κ} :
    ∀ {u l : List α} {x : α}, x ∈ u → (u.map key).Nodup →
      x ∈ bulkPut key l u := by
  intro u
  induction u with
  | nil => intro l x hx; exact absurd hx (List.not_mem_nil x)
  | cons z u ih =>
    intro l x hx hu
    have hun : (u.map key).Nodup := (List.nodup_cons.mp hu).2
    rcases List.mem_cons.mp hx with rfl | hx'
    · have hkx : ¬ key x ∈ u.map key := (List.nodup_cons.mp hu).1
      have hex : ∃ e ∈ bulkPut key (putByKey key l x) u, key e = key x :=
        exists_mem_bulkPut_key_of_exists
          (exists_mem_putByKey_key l x)
      rcases hex with ⟨e, he, hke⟩
      have : e = x := bulkPut_key_eq (List.mem_cons_self x u) hu e he hke
      exact this ▸ he
    · exact ih hx' hun

theorem zip_map_self (f : α → β) (l : List α) :
    l.zip (l.map f) = l.map (fun a => (a, f a)) := by
  induction l with
  | nil => rfl
  | cons a l ih => simp [List.zip_cons_cons, ih]

/-! ## Pull-merge characterization lemmas -/

theorem key_not_mem_filterMap [DecidableEq κ] {key : α → κ} {F : α → Option α}
    (hFkey : ∀ a b, F a = some b → key b = key a) {ss : List α}
    (hss : (ss.map key).Nodup) {s : α} (hs : s ∈ ss) (hFs : F s = none) :
    ¬ key s ∈ (ss.filterMap F).map key := by
  intro hmem
  rcases List.mem_map.mp hmem with ⟨t, ht, hkt⟩
  rcases List.mem_filterMap.mp ht with ⟨s', hs', hFs'⟩
  have hk : key s' = key s := by rw [← hFkey s' t hFs', hkt]
  have hse : s' = s := List.inj_on_of_nodup_map hss hs' hs hk
  subst hse
  rw [hFs] at hFs'
  cases hFs'

theorem mergeItems_items_eq (now : Nat) (st : Store) (ss : List LocalItem) :
    (mergeItems now st ss).items = bulkPut (·.id) st.items
      (ss.filterMap (fun s =>
        match tableGet (·.id) st.items s.id with
        | none => some { s with syncStatus := .synced, lastSyncedAt := some now }
        | some l =>
          if l.updatedAt < s.updatedAt then
            some { s with syncStatus := .synced, lastSyncedAt := some now }
          else none)) := by
  unfold mergeItems
  by_cases h : ss.length = 0
  · rw [if_pos h]
    have hnil : ss = [] := List.length_eq_zero.mp h
    subst hnil
    rfl
  · rw [if_neg h]
    show bulkPut _ _ _ = _
    congr 1
    rw [zip_map_self, List.filterMap_map]
    rfl

theorem mergeCollections_collections_eq (now : Nat) (st : Store)
    (ss : List LocalCollection) :
    (mergeCollections now st ss).collections = bulkPut (·.id) st.collections
      (ss.filterMap (fun s =>
        match tableGet (·.id) st.collections s.id with
        | none => some { s with syncStatus := .synced, lastSyncedAt := some now }
        | some l =>
          if l.updatedAt < s.updatedAt then
            some { s with syncStatus := .synced, lastSyncedAt := some now }
          else none)) := by
  unfold mergeCollections
  by_cases h : ss.length = 0
  · rw [if_pos h]
    have hnil : ss = [] := List.length_eq_zero.mp h
    subst hnil
    rfl
  · rw [if_neg h]
    show bulkPut _ _ _ = _
    congr 1
    rw [zip_map_self, List.filterMap_map]
    rfl

theorem mergeTags_tags_eq (now : Nat) (st : Store) (ss : List LocalTag) :
    (mergeTags now st ss).tags = bulkPut (·.id) st.tags
      (ss.filterMap (fun s =>
        match tableGet (·.id) st.tags s.id with
        | none => some { s with syncStatus := .synced, lastSyncedAt := some now }
        | some l =>
          if s.updatedAt ≠ 0 ∧ l.updatedAt ≠ 0 ∧ l.updatedAt < s.updatedAt then
            some { s with syncStatus := .synced, lastSyncedAt := some now }
          else none)) := by
  unfold mergeTags
  by_cases h : ss.length = 0
  · rw [if_pos h]
    have hnil : ss = [] := List.length_eq_zero.mp h
    subst hnil
    rfl
  · rw [if_neg h]
    show bulkPut _ _ _ = _
    congr 1
    rw [zip_map_self, List.filterMap_map]
    rfl

theorem mergeItemTags_itemTags_eq (st : Store) (ss : List LocalItemTag) :
    (mergeItemTags st ss).itemTags = bulkPut itemTagKey st.itemTags
      (ss.filterMap (fun s =>
        match tableGet itemTagKey st.itemTags (itemTagKey s) with
        | none => some { s with syncStatus := SyncStatus.synced }
        | some _ => none)) := by
  unfold mergeItemTags
  by_cases h : ss.length = 0
  · rw [if_pos h]
    have hnil : ss = [] := List.length_eq_zero.mp h
    subst hnil
    rfl
  · rw [if_neg h]
    show bulkPut _ _ _ = _
    congr 1
    rw [zip_map_self, List.filterMap_map]
    rfl

/-- The three behaviours of `bulkPut` over a replace-or-insert list built by a
key-preserving `filterMap` over key-distinct server rows: a produced row is in
the result and is the only row with its key; a server row on which the
`filterMap` produced nothing leaves the rows with its key exactly as they
were. -/
theorem bulkPut_merge_spec [DecidableEq κ] {key : α → κ} {F : α → Option α}
    {l ss : List α} (hss : (ss.map key).Nodup)
    (hFkey : ∀ a b, F a = some b → key b = key a) :
    ∀ s ∈ ss,
      (∀ x, F s = some x → x ∈ bulkPut key l (ss.filterMap F) ∧
        (∀ e ∈ bulkPut key l (ss.filterMap F), key e = key x → e = x)) ∧
      (F s = none →
        ∀ e, (e ∈ bulkPut key l (ss.filterMap F) ∧ key e = key s) ↔
          (e ∈ l ∧ key e = key s)) := by
  intro s hs
  have hnd : ((ss.filterMap F).map key).Nodup :=
    (map_key_filterMap_sublist key F hFkey ss).nodup hss
  constructor
  · intro x hFs
    have hxu : x ∈ ss.filterMap F := List.mem_filterMap.mpr ⟨s, hs, hFs⟩
    exact ⟨mem_bulkPut_of_mem hxu hnd, bulkPut_key_eq hxu hnd⟩
  · intro hFs e
    exact bulkPut_key_stable (key_not_mem_filterMap hFkey hss hs hFs)

/-! ### C7 — last-write-wins pull merge -/

/-- C7 amended: during the pull phase, an **item** or **collection** is
overwritten wholesale by the server copy (stamped `synced` with
`lastSyncedAt = now`) iff no local counterpart exists or the remote
`updatedAt` is strictly greater; on ties and when the local copy is newer the
local rows are left exactly as they were.  For a **tag** with an existing
local counterpart the overwrite additionally requires both the remote and the
local `updatedAt` to be nonzero (the code tests them for JS truthiness); a tag
with no local counterpart is inserted unconditionally.  A remote **item-tag
link** is inserted (marked `synced`) iff no local record of the
`(itemId, tagId)` pair exists; otherwise the rows of that pair are untouched. -/
theorem pull_merge_lww (now : Nat) (st : Store) (ss : List LocalItem)
    (cc : List LocalCollection) (ts : List LocalTag) (ls : List LocalItemTag)
    (hsI : (ss.map (·.id)).Nodup) (hsC : (cc.map (·.id)).Nodup)
    (hsT : (ts.map (·.id)).Nodup) (hsL : (ls.map itemTagKey).Nodup) :
    (∀ s ∈ ss,
      (tableGet (·.id) st.items s.id = none →
        { s with syncStatus := SyncStatus.synced, lastSyncedAt := some now } ∈
          (mergeItems now st ss).items) ∧
      (∀ lx, tableGet (·.id) st.items s.id = some lx →
        (lx.updatedAt < s.updatedAt →
          { s with syncStatus := SyncStatus.synced, lastSyncedAt := some now } ∈
              (mergeItems now st ss).items ∧
            (∀ e ∈ (mergeItems now st ss).items, e.id = s.id →
              e = { s with syncStatus := SyncStatus.synced, lastSyncedAt := some now })) ∧
        (¬ lx.updatedAt < s.updatedAt →
          ∀ e, (e ∈ (mergeItems now st ss).items ∧ e.id = s.id) ↔
            (e ∈ st.items ∧ e.id = s.id)))) ∧
    (∀ s ∈ cc,
      (tableGet (·.id) st.collections s.id = none →
        { s with syncStatus := SyncStatus.synced, lastSyncedAt := some now } ∈
          (mergeCollections now st cc).collections) ∧
      (∀ lx, tableGet (·.id) st.collections s.id = some lx →
        (lx.updatedAt < s.updatedAt →
          { s with syncStatus := SyncStatus.synced, lastSyncedAt := some now } ∈
              (mergeCollections now st cc).collections ∧
            (∀ e ∈ (mergeCollections now st cc).collections, e.id = s.id →
              e = { s with syncStatus := SyncStatus.synced, lastSyncedAt := some now })) ∧
        (¬ lx.updatedAt < s.updatedAt →
          ∀ e, (e ∈ (mergeCollections now st cc).collections ∧ e.id = s.id) ↔
            (e ∈ st.collections ∧ e.id = s.id)))) ∧
    (∀ s ∈ ts,
      (tableGet (·.id) st.tags s.id = none →
        { s with syncStatus := SyncStatus.synced, lastSyncedAt := some now } ∈
          (mergeTags now st ts).tags) ∧
      (∀ lx, tableGet (·.id) st.tags s.id = some lx →
        (s.updatedAt ≠ 0 ∧ lx.updatedAt ≠ 0 ∧ lx.updatedAt < s.updatedAt →
          { s with syncStatus := SyncStatus.synced, lastSyncedAt := some now } ∈
              (mergeTags now st ts).tags ∧
            (∀ e ∈ (mergeTags now st ts).tags, e.id = s.id →
              e = { s with syncStatus := SyncStatus.synced, lastSyncedAt := some now })) ∧
        (¬ (s.updatedAt ≠ 0 ∧ lx.updatedAt ≠ 0 ∧ lx.updatedAt < s.updatedAt) →
          ∀ e, (e ∈ (mergeTags now st ts).tags ∧ e.id = s.id) ↔
            (e ∈ st.tags ∧ e.id = s.id)))) ∧
    (∀ s ∈ ls,
      (tableGet itemTagKey st.itemTags (itemTagKey s) = none →
        { s with syncStatus := SyncStatus.synced } ∈ (mergeItemTags st ls).itemTags) ∧
      (∀ lx, tableGet itemTagKey st.itemTags (itemTagKey s) = some lx →
        ∀ e, (e ∈ (mergeItemTags st ls).itemTags ∧ itemTagKey e = itemTagKey s) ↔
          (e ∈ st.itemTags ∧ itemTagKey e = itemTagKey s))) := by
  refine ⟨?_, ?_, ?_, ?_⟩
  · intro s hs
    have hFkey : ∀ (a b : LocalItem),
        (match tableGet (·.id) st.items a.id with
          | none => some { a with syncStatus := SyncStatus.synced, lastSyncedAt := some now }
          | some l =>
            if l.updatedAt < a.updatedAt then
              some { a with syncStatus := SyncStatus.synced, lastSyncedAt := some now }
            else none) = some b → b.id = a.id := by
      intro a b hab
      cases hfind : tableGet (·.id) st.items a.id with
      | none => rw [hfind] at hab; cases hab; rfl
      | some l =>
        rw [hfind] at hab
        dsimp only at hab
        by_cases hc : l.updatedAt < a.updatedAt
        · rw [if_pos hc] at hab; cases hab; rfl
        · rw [if_neg hc] at hab; cases hab
    have H := @bulkPut_merge_spec _ _ _ (fun e : LocalItem => e.id)
      (fun a => match tableGet (·.id) st.items a.id with
        | none => some { a with syncStatus := SyncStatus.synced, lastSyncedAt := some now }
        | some l =>
          if l.updatedAt < a.updatedAt then
            some { a with syncStatus := SyncStatus.synced, lastSyncedAt := some now }
          else none)
      st.items _ hsI hFkey s hs
    simp only [mergeItems_items_eq]
    refine ⟨?_, ?_⟩
    · intro hfind
      refine (H.1 _ ?_).1
      show (match tableGet (·.id) st.items s.id with
        | none => some { s with syncStatus := SyncStatus.synced, lastSyncedAt := some now }
        | some l =>
          if l.updatedAt < s.updatedAt then
            some { s with syncStatus := SyncStatus.synced, lastSyncedAt := some now }
          else none) = some { s with syncStatus := SyncStatus.synced, lastSyncedAt := some now }
      rw [hfind]
    · intro lx hfind
      refine ⟨?_, ?_⟩
      · intro hlt
        have hFs : (match tableGet (·.id) st.items s.id with
            | none => some { s with syncStatus := SyncStatus.synced, lastSyncedAt := some now }
            | some l =>
              if l.updatedAt < s.updatedAt then
                some { s with syncStatus := SyncStatus.synced, lastSyncedAt := some now }
              else none) =
            some { s with syncStatus := SyncStatus.synced, lastSyncedAt := some now } := by
          rw [hfind]
          exact if_pos hlt
        exact ⟨(H.1 _ hFs).1, (H.1 _ hFs).2⟩
      · intro hlt
        have hFs : (match tableGet (·.id) st.items s.id with
            | none => some { s with syncStatus := SyncStatus.synced, lastSyncedAt := some now }
            | some l =>
              if l.updatedAt < s.updatedAt then
                some { s with syncStatus := SyncStatus.synced, lastSyncedAt := some now }
              else none) = none := by
          rw [hfind]
          exact if_neg hlt
        exact H.2 hFs
  · intro s hs
    have hFkey : ∀ (a b : LocalCollection),
        (match tableGet (·.id) st.collections a.id with
          | none => some { a with syncStatus := SyncStatus.synced, lastSyncedAt := some now }
          | some l =>
            if l.updatedAt < a.updatedAt then
              some { a with syncStatus := SyncStatus.synced, lastSyncedAt := some now }
            else none) = some b → b.id = a.id := by
      intro a b hab
      cases hfind : tableGet (·.id) st.collections a.id with
      | none => rw [hfind] at hab; cases hab; rfl
      | some l =>
        rw [hfind] at hab
        dsimp only at hab
        by_cases hc : l.updatedAt < a.updatedAt
        · rw [if_pos hc] at hab; cases hab; rfl
        · rw [if_neg hc] at hab; cases hab
    have H := @bulkPut_merge_spec _ _ _ (fun e : LocalCollection => e.id)
      (fun a => match tableGet (·.id) st.collections a.id with
        | none => some { a with syncStatus := SyncStatus.synced, lastSyncedAt := some now }
        | some l =>
          if l.updatedAt < a.updatedAt then
            some { a with syncStatus := SyncStatus.synced, lastSyncedAt := some now }
          else none)
      st.collections _ hsC hFkey s hs
    simp only [mergeCollections_collections_eq]
    refine ⟨?_, ?_⟩
    · intro hfind
      refine (H.1 _ ?_).1
      show (match tableGet (·.id) st.collections s.id with
        | none => some { s with syncStatus := SyncStatus.synced, lastSyncedAt := some now }
        | some l =>
          if l.updatedAt < s.updatedAt then
            some { s with syncStatus := SyncStatus.synced, lastSyncedAt := some now }
          else none) = some { s with syncStatus := SyncStatus.synced, lastSyncedAt := some now }
      rw [hfind]
    · intro lx hfind
      refine ⟨?_, ?_⟩
      · intro hlt
        have hFs : (match tableGet (·.id) st.collections s.id with
            | none => some { s with syncStatus := SyncStatus.synced, lastSyncedAt := some now }
            | some l =>
              if l.updatedAt < s.updatedAt then
                some { s with syncStatus := SyncStatus.synced, lastSyncedAt := some now }
              else none) =
            some { s with syncStatus := SyncStatus.synced, lastSyncedAt := some now } := by
          rw [hfind]
          exact if_pos hlt
        exact ⟨(H.1 _ hFs).1, (H.1 _ hFs).2⟩
      · intro hlt
        have hFs : (match tableGet (·.id) st.collections s.id with
            | none => some { s with syncStatus := SyncStatus.synced, lastSyncedAt := some now }
            | some l =>
              if l.updatedAt < s.updatedAt then
                some { s with syncStatus := SyncStatus.synced, lastSyncedAt := some now }
              else none) = none := by
          rw [hfind]
          exact if_neg hlt
        exact H.2 hFs
  · intro s hs
    have hFkey : ∀ (a b : LocalTag),
        (match tableGet (·.id) st.tags a.id with
          | none => some { a with syncStatus := SyncStatus.synced, lastSyncedAt := some now }
          | some l =>
            if a.updatedAt ≠ 0 ∧ l.updatedAt ≠ 0 ∧ l.updatedAt < a.updatedAt then
              some { a with syncStatus := SyncStatus.synced, lastSyncedAt := some now }
            else none) = some b → b.id = a.id := by
      intro a b hab
      cases hfind : tableGet (·.id) st.tags a.id with
      | none => rw [hfind] at hab; cases hab; rfl
      | some l =>
        rw [hfind] at hab
        dsimp only at hab
        by_cases hc : a.updatedAt ≠ 0 ∧ l.updatedAt ≠ 0 ∧ l.updatedAt < a.updatedAt
        · rw [if_pos hc] at hab; cases hab; rfl
        · rw [if_neg hc] at hab; cases hab
    have H := @bulkPut_merge_spec _ _ _ (fun e : LocalTag => e.id)
      (fun a => match tableGet (·.id) st.tags a.id with
        | none => some { a with syncStatus := SyncStatus.synced, lastSyncedAt := some now }
        | some l =>
          if a.updatedAt ≠ 0 ∧ l.updatedAt ≠ 0 ∧ l.updatedAt < a.updatedAt then
            some { a with syncStatus := SyncStatus.synced, lastSyncedAt := some now }
          else none)
      st.tags _ hsT hFkey s hs
    simp only [mergeTags_tags_eq]
    refine ⟨?_, ?_⟩
    · intro hfind
      refine (H.1 _ ?_).1
      show (match tableGet (·.id) st.tags s.id with
        | none => some { s with syncStatus := SyncStatus.synced, lastSyncedAt := some now }
        | some l =>
          if s.updatedAt ≠ 0 ∧ l.updatedAt ≠ 0 ∧ l.updatedAt < s.updatedAt then
            some { s with syncStatus := SyncStatus.synced, lastSyncedAt := some now }
          else none) = some { s with syncStatus := SyncStatus.synced, lastSyncedAt := some now }
      rw [hfind]
    · intro lx hfind
      refine ⟨?_, ?_⟩
      · intro hlt
        have hFs : (match tableGet (·.id) st.tags s.id with
            | none => some { s with syncStatus := SyncStatus.synced, lastSyncedAt := some now }
            | some l =>
              if s.updatedAt ≠ 0 ∧ l.updatedAt ≠ 0 ∧ l.updatedAt < s.updatedAt then
                some { s with syncStatus := SyncStatus.synced, lastSyncedAt := some now }
              else none) =
            some { s with syncStatus := SyncStatus.synced, lastSyncedAt := some now } := by
          rw [hfind]
          exact if_pos hlt
        exact ⟨(H.1 _ hFs).1, (H.1 _ hFs).2⟩
      · intro hlt
        have hFs : (match tableGet (·.id) st.tags s.id with
            | none => some { s with syncStatus := SyncStatus.synced, lastSyncedAt := some now }
            | some l =>
              if s.updatedAt ≠ 0 ∧ l.updatedAt ≠ 0 ∧ l.updatedAt < s.updatedAt then
                some { s with syncStatus := SyncStatus.synced, lastSyncedAt := some now }
              else none) = none := by
          rw [hfind]
          exact if_neg hlt
        exact H.2 hFs
  · intro s hs
    have hFkey : ∀ (a b : LocalItemTag),
        (match tableGet itemTagKey st.itemTags (itemTagKey a) with
          | none => some { a with syncStatus := SyncStatus.synced }
          | some _ => none) = some b → itemTagKey b = itemTagKey a := by
      intro a b hab
      cases hfind : tableGet itemTagKey st.itemTags (itemTagKey a) with
      | none => rw [hfind] at hab; cases hab; rfl
      | some l => rw [hfind] at hab; cases hab
    have H := @bulkPut_merge_spec _ _ _ itemTagKey
      (fun a => match tableGet itemTagKey st.itemTags (itemTagKey a) with
        | none => some { a with syncStatus := SyncStatus.synced }
        | some _ => none)
      st.itemTags _ hsL hFkey s hs
    simp only [mergeItemTags_itemTags_eq]
    refine ⟨?_, ?_⟩
    · intro hfind
      refine (H.1 _ ?_).1
      show (match tableGet itemTagKey st.itemTags (itemTagKey s) with
        | none => some { s with syncStatus := SyncStatus.synced }
        | some _ => none) = some { s with syncStatus := SyncStatus.synced }
      rw [hfind]
    · intro lx hfind e
      refine H.2 ?_ e
      show (match tableGet itemTagKey st.itemTags (itemTagKey s) with
        | none => some { s with syncStatus := SyncStatus.synced }
        | some _ => none) = none
      rw [hfind]

/-- C7 counterexample: a remote tag with `updatedAt = 5` against a local tag
with `updatedAt = 0` is **not** merged — `mergeTags` leaves the local row
untouched although the remote `updatedAt` is strictly greater, because the
code's truthiness test `serverTag.updatedAt && localTag.updatedAt && ...`
fails on the local 0. -/
theorem mergeTags_zero_timestamp_not_overwritten :
    (mergeTags 100 { emptyStore with tags := [cexLocalTagZero] } [cexServerTag]).tags =
      [cexLocalTagZero] ∧
      cexLocalTagZero.updatedAt < cexServerTag.updatedAt ∧
      cexLocalTagZero ≠
        { cexServerTag with syncStatus := SyncStatus.synced, lastSyncedAt := some 100 } := by
  refine ⟨rfl, by decide, by decide⟩

/-- C7 amended, witness: singleton server lists against the empty store. -/
theorem pull_merge_lww_witness :
    ((([mkItem "i1" "c1" .pending false 5].map (fun e : LocalItem => e.id)).Nodup ∧
      ([mkCollection "c1" false .pending false 5].map (fun e : LocalCollection => e.id)).Nodup ∧
      ([mkTag "t1" .pending false 5].map (fun e : LocalTag => e.id)).Nodup ∧
      ([mkLink "i1" "t1" .pending].map itemTagKey).Nodup)) ∧
    ((∀ s ∈ [mkItem "i1" "c1" .pending false 5],
      (tableGet (·.id) emptyStore.items s.id = none →
        { s with syncStatus := SyncStatus.synced, lastSyncedAt := some 7 } ∈
          (mergeItems 7 emptyStore [mkItem "i1" "c1" .pending false 5]).items) ∧
      (∀ lx, tableGet (·.id) emptyStore.items s.id = some lx →
        (lx.updatedAt < s.updatedAt →
          { s with syncStatus := SyncStatus.synced, lastSyncedAt := some 7 } ∈
              (mergeItems 7 emptyStore [mkItem "i1" "c1" .pending false 5]).items ∧
            (∀ e ∈ (mergeItems 7 emptyStore [mkItem "i1" "c1" .pending false 5]).items,
              e.id = s.id →
              e = { s with syncStatus := SyncStatus.synced, lastSyncedAt := some 7 })) ∧
        (¬ lx.updatedAt < s.updatedAt →
          ∀ e, (e ∈ (mergeItems 7 emptyStore [mkItem "i1" "c1" .pending false 5]).items ∧
              e.id = s.id) ↔
            (e ∈ emptyStore.items ∧ e.id = s.id)))) ∧
    (∀ s ∈ [mkCollection "c1" false .pending false 5],
      (tableGet (·.id) emptyStore.collections s.id = none →
        { s with syncStatus := SyncStatus.synced, lastSyncedAt := some 7 } ∈
          (mergeCollections 7 emptyStore [mkCollection "c1" false .pending false 5]).collections) ∧
      (∀ lx, tableGet (·.id) emptyStore.collections s.id = some lx →
        (lx.updatedAt < s.updatedAt →
          { s with syncStatus := SyncStatus.synced, lastSyncedAt := some 7 } ∈
              (mergeCollections 7 emptyStore
                [mkCollection "c1" false .pending false 5]).collections ∧
            (∀ e ∈ (mergeCollections 7 emptyStore
                [mkCollection "c1" false .pending false 5]).collections, e.id = s.id →
              e = { s with syncStatus := SyncStatus.synced, lastSyncedAt := some 7 })) ∧
        (¬ lx.updatedAt < s.updatedAt →
          ∀ e, (e ∈ (mergeCollections 7 emptyStore
              [mkCollection "c1" false .pending false 5]).collections ∧ e.id = s.id) ↔
            (e ∈ emptyStore.collections ∧ e.id = s.id)))) ∧
    (∀ s ∈ [mkTag "t1" .pending false 5],
      (tableGet (·.id) emptyStore.tags s.id = none →
        { s with syncStatus := SyncStatus.synced, lastSyncedAt := some 7 } ∈
          (mergeTags 7 emptyStore [mkTag "t1" .pending false 5]).tags) ∧
      (∀ lx, tableGet (·.id) emptyStore.tags s.id = some lx →
        (s.updatedAt ≠ 0 ∧ lx.updatedAt ≠ 0 ∧ lx.updatedAt < s.updatedAt →
          { s with syncStatus := SyncStatus.synced, lastSyncedAt := some 7 } ∈
              (mergeTags 7 emptyStore [mkTag "t1" .pending false 5]).tags ∧
            (∀ e ∈ (mergeTags 7 emptyStore [mkTag "t1" .pending false 5]).tags,
              e.id = s.id →
              e = { s with syncStatus := SyncStatus.synced, lastSyncedAt := some 7 })) ∧
        (¬ (s.updatedAt ≠ 0 ∧ lx.updatedAt ≠ 0 ∧ lx.updatedAt < s.updatedAt) →
          ∀ e, (e ∈ (mergeTags 7 emptyStore [mkTag "t1" .pending false 5]).tags ∧
              e.id = s.id) ↔
            (e ∈ emptyStore.tags ∧ e.id = s.id)))) ∧
    (∀ s ∈ [mkLink "i1" "t1" .pending],
      (tableGet itemTagKey emptyStore.itemTags (itemTagKey s) = none →
        { s with syncStatus := SyncStatus.synced } ∈
          (mergeItemTags emptyStore [mkLink "i1" "t1" .pending]).itemTags) ∧
      (∀ lx, tableGet itemTagKey emptyStore.itemTags (itemTagKey s) = some lx →
        ∀ e, (e ∈ (mergeItemTags emptyStore [mkLink "i1" "t1" .pending]).itemTags ∧
            itemTagKey e = itemTagKey s) ↔
          (e ∈ emptyStore.itemTags ∧ itemTagKey e = itemTagKey s)))) :=
  ⟨⟨by decide, by decide, by decide, by decide⟩,
    pull_merge_lww 7 emptyStore [mkItem "i1" "c1" .pending false 5]
      [mkCollection "c1" false .pending false 5] [mkTag "t1" .pending false 5]
      [mkLink "i1" "t1" .pending] (by decide) (by decide) (by decide) (by decide)⟩

/-! ### C9 — the Reconciler never regresses `updatedAt` -/

theorem mem_bulkUpdateWhere [DecidableEq κ] {key : α → κ} {ks : List κ} {f : α → α}
    {l : List α} {e' : α} (h : e' ∈ bulkUpdateWhere key ks f l) :
    ∃ e ∈ l, e' = e ∨ e' = f e := by
  rcases List.mem_map.mp h with ⟨e, he, hfe⟩
  refine ⟨e, he, ?_⟩
  by_cases hc : ks.contains (key e) = true
  · right; rw [← hfe]; exact (if_pos hc).symm ▸ rfl
  · left; rw [← hfe]; exact (if_neg hc).symm ▸ rfl

theorem bulkPut_measure_mono [DecidableEq κ] {key : α → κ} (m : α → Nat)
    {l u : List α} (hl : (l.map key).Nodup)
    (hu : ∀ x ∈ u, ∀ e ∈ l, key e = key x → m e ≤ m x) :
    ∀ e ∈ l, ∀ e' ∈ bulkPut key l u, key e' = key e → m e ≤ m e' := by
  intro e he e' he' hk
  rcases mem_bulkPut he' with h | h
  · have : e' = e := List.inj_on_of_nodup_map hl h he hk
    subst this
    exact le_refl _
  · exact hu e' h e he hk.symm

/-- C9: the Reconciler never regresses `updatedAt`.  Applying an
acknowledgement (`markAsSynced`) only rewrites `syncStatus`, `lastSyncedAt`
and `syncError`: every surviving row keeps the `updatedAt` of a same-id row of
the original store.  The pull merges only ever replace a row by one with a
strictly greater `updatedAt` (or insert rows with fresh ids), so for every
surviving same-id pair the new `updatedAt` is at least the old one. -/
theorem reconciler_never_regresses_updatedAt (now : Nat) (st : Store)
    (hI : (st.items.map (·.id)).Nodup) (hC : (st.collections.map (·.id)).Nodup)
    (hT : (st.tags.map (·.id)).Nodup) :
    (∀ r st', markAsSynced now st r = .ok st' →
      (∀ e' ∈ st'.items, ∃ e ∈ st.items, e'.id = e.id ∧ e'.updatedAt = e.updatedAt) ∧
      (∀ e' ∈ st'.collections, ∃ e ∈ st.collections,
        e'.id = e.id ∧ e'.updatedAt = e.updatedAt) ∧
      (∀ e' ∈ st'.tags, ∃ e ∈ st.tags, e'.id = e.id ∧ e'.updatedAt = e.updatedAt)) ∧
    (∀ ss, ∀ e ∈ st.items, ∀ e' ∈ (mergeItems now st ss).items,
      e'.id = e.id → e.updatedAt ≤ e'.updatedAt) ∧
    (∀ cc, ∀ e ∈ st.collections, ∀ e' ∈ (mergeCollections now st cc).collections,
      e'.id = e.id → e.updatedAt ≤ e'.updatedAt) ∧
    (∀ ts, ∀ e ∈ st.tags, ∀ e' ∈ (mergeTags now st ts).tags,
      e'.id = e.id → e.updatedAt ≤ e'.updatedAt) := by
  refine ⟨?_, ?_, ?_, ?_⟩
  · intro r st' hok
    simp only [markAsSynced] at hok
    cases hsit : (r.synced.getD ⟨none, none, none, none⟩).itemTags with
    | none => rw [hsit] at hok; cases hok
    | some sit =>
    cases hdc : (r.deleted.getD ⟨none, none, none⟩).collections with
    | none => rw [hsit, hdc] at hok; cases hok
    | some dc =>
    cases hdt : (r.deleted.getD ⟨none, none, none⟩).tags with
    | none => rw [hsit, hdc, hdt] at hok; cases hok
    | some dt =>
    rw [hsit, hdc, hdt] at hok
    dsimp only at hok
    cases hok
    refine ⟨?_, ?_, ?_⟩
    · intro e' he'
      rcases mem_bulkUpdateWhere (List.mem_of_mem_filter he') with ⟨e, he, hcase⟩
      rcases hcase with hce | hce
      · exact ⟨e, he, by rw [hce], by rw [hce]⟩
      · exact ⟨e, he, by rw [hce], by rw [hce]⟩
    · intro e' he'
      rcases mem_bulkUpdateWhere (List.mem_of_mem_filter he') with ⟨e, he, hcase⟩
      rcases hcase with hce | hce
      · exact ⟨e, he, by rw [hce], by rw [hce]⟩
      · exact ⟨e, he, by rw [hce], by rw [hce]⟩
    · intro e' he'
      rcases mem_bulkUpdateWhere (List.mem_of_mem_filter he') with ⟨e, he, hcase⟩
      rcases hcase with hce | hce
      · exact ⟨e, he, by rw [hce], by rw [hce]⟩
      · exact ⟨e, he, by rw [hce], by rw [hce]⟩
  · intro ss e he e' he' hk
    rw [mergeItems_items_eq] at he'
    refine @bulkPut_measure_mono _ _ _ (fun i : LocalItem => i.id)
      (fun i : LocalItem => i.updatedAt) _ _ hI ?_ e he e' he' hk
    intro x hx e0 he0 hk0
    rcases List.mem_filterMap.mp hx with ⟨s, hs, hFs⟩
    cases hfind : tableGet (·.id) st.items s.id with
    | none =>
      rw [hfind] at hFs
      cases hFs
      exfalso
      unfold tableGet at hfind
      exact List.find?_eq_none.mp hfind e0 he0
        (decide_eq_true (show e0.id = s.id from hk0))
    | some lx =>
      rw [hfind] at hFs
      dsimp only at hFs
      by_cases hc : lx.updatedAt < s.updatedAt
      · rw [if_pos hc] at hFs
        cases hFs
        have hlxmem : lx ∈ st.items := by
          unfold tableGet at hfind
          exact List.mem_of_find?_eq_some hfind
        have hlxid : lx.id = s.id := by
          unfold tableGet at hfind
          have hp := List.find?_some hfind
          simpa using hp
        have he0lx : e0 = lx :=
          List.inj_on_of_nodup_map hI he0 hlxmem
            (by rw [hlxid]; exact hk0)
        subst he0lx
        exact Nat.le_of_lt hc
      · rw [if_neg hc] at hFs
        cases hFs
  · intro cc e he e' he' hk
    rw [mergeCollections_collections_eq] at he'
    refine @bulkPut_measure_mono _ _ _ (fun i : LocalCollection => i.id)
      (fun i : LocalCollection => i.updatedAt) _ _ hC ?_ e he e' he' hk
    intro x hx e0 he0 hk0
    rcases List.mem_filterMap.mp hx with ⟨s, hs, hFs⟩
    cases hfind : tableGet (·.id) st.collections s.id with
    | none =>
      rw [hfind] at hFs
      cases hFs
      exfalso
      unfold tableGet at hfind
      exact List.find?_eq_none.mp hfind e0 he0
        (decide_eq_true (show e0.id = s.id from hk0))
    | some lx =>
      rw [hfind] at hFs
      dsimp only at hFs
      by_cases hc : lx.updatedAt < s.updatedAt
      · rw [if_pos hc] at hFs
        cases hFs
        have hlxmem : lx ∈ st.collections := by
          unfold tableGet at hfind
          exact List.mem_of_find?_eq_some hfind
        have hlxid : lx.id = s.id := by
          unfold tableGet at hfind
          have hp := List.find?_some hfind
          simpa using hp
        have he0lx : e0 = lx :=
          List.inj_on_of_nodup_map hC he0 hlxmem
            (by rw [hlxid]; exact hk0)
        subst he0lx
        exact Nat.le_of_lt hc
      · rw [if_neg hc] at hFs
        cases hFs
  · intro ts e he e' he' hk
    rw [mergeTags_tags_eq] at he'
    refine @bulkPut_measure_mono _ _ _ (fun i : LocalTag => i.id)
      (fun i : LocalTag => i.updatedAt) _ _ hT ?_ e he e' he' hk
    intro x hx e0 he0 hk0
    rcases List.mem_filterMap.mp hx with ⟨s, hs, hFs⟩
    cases hfind : tableGet (·.id) st.tags s.id with
    | none =>
      rw [hfind] at hFs
      cases hFs
      exfalso
      unfold tableGet at hfind
      exact List.find?_eq_none.mp hfind e0 he0
        (decide_eq_true (show e0.id = s.id from hk0))
    | some lx =>
      rw [hfind] at hFs
      dsimp only at hFs
      by_cases hc : s.updatedAt ≠ 0 ∧ lx.updatedAt ≠ 0 ∧ lx.updatedAt < s.updatedAt
      · rw [if_pos hc] at hFs
        cases hFs
        have hlxmem : lx ∈ st.tags := by
          unfold tableGet at hfind
          exact List.mem_of_find?_eq_some hfind
        have hlxid : lx.id = s.id := by
          unfold tableGet at hfind
          have hp := List.find?_some hfind
          simpa using hp
        have he0lx : e0 = lx :=
          List.inj_on_of_nodup_map hT he0 hlxmem
            (by rw [hlxid]; exact hk0)
        subst he0lx
        exact Nat.le_of_lt hc.2.2
      · rw [if_neg hc] at hFs
        cases hFs

/-- C9 witness at `wStoreC9` (one row per id-keyed table), `now = 9`. -/
theorem reconciler_never_regresses_updatedAt_witness :
    ((wStoreC9.items.map (·.id)).Nodup ∧ (wStoreC9.collections.map (·.id)).Nodup ∧
      (wStoreC9.tags.map (·.id)).Nodup) ∧
    ((∀ r st', markAsSynced 9 wStoreC9 r = .ok st' →
      (∀ e' ∈ st'.items, ∃ e ∈ wStoreC9.items,
        e'.id = e.id ∧ e'.updatedAt = e.updatedAt) ∧
      (∀ e' ∈ st'.collections, ∃ e ∈ wStoreC9.collections,
        e'.id = e.id ∧ e'.updatedAt = e.updatedAt) ∧
      (∀ e' ∈ st'.tags, ∃ e ∈ wStoreC9.tags,
        e'.id = e.id ∧ e'.updatedAt = e.updatedAt)) ∧
    (∀ ss, ∀ e ∈ wStoreC9.items, ∀ e' ∈ (mergeItems 9 wStoreC9 ss).items,
      e'.id = e.id → e.updatedAt ≤ e'.updatedAt) ∧
    (∀ cc, ∀ e ∈ wStoreC9.collections,
      ∀ e' ∈ (mergeCollections 9 wStoreC9 cc).collections,
      e'.id = e.id → e.updatedAt ≤ e'.updatedAt) ∧
    (∀ ts, ∀ e ∈ wStoreC9.tags, ∀ e' ∈ (mergeTags 9 wStoreC9 ts).tags,
      e'.id = e.id → e.updatedAt ≤ e'.updatedAt)) :=
  ⟨⟨by decide, by decide, by decide⟩,
    reconciler_never_regresses_updatedAt 9 wStoreC9 (by decide) (by decide) (by decide)⟩

/-! ### C10 — default-collection guard and item reassignment -/

theorem map_congr_mem {f g : α → β} :
    ∀ {l : List α}, (∀ a ∈ l, f a = g a) → l.map f = l.map g := by
  intro l
  induction l with
  | nil => intro _; rfl
  | cons a l ih =>
    intro h
    simp only [List.map_cons, h a (List.mem_cons_self a l),
      ih (fun b hb => h b (List.mem_cons_of_mem a hb))]

/-- A `for`-loop of per-key `update`s over rows `R` of a key-distinct list
collapses to one pointwise pass, provided the change set preserves keys. -/
theorem foldl_tableUpdate_eq_map [DecidableEq κ] {key : α → κ} {f : α → α}
    (hf : ∀ a, key (f a) = key a) :
    ∀ (R l : List α), (l.map key).Nodup → (R.map key).Nodup → (∀ r ∈ R, r ∈ l) →
      R.foldl (fun acc r => tableUpdate key acc (key r) f) l =
        l.map (fun e => if key e ∈ R.map key then f e else e) := by
  intro R
  induction R with
  | nil =>
    intro l _ _ _
    simp
  | cons r R ih =>
    intro l hl hR hmem
    have hrl : r ∈ l := hmem r (List.mem_cons_self r R)
    have hRid : ¬ key r ∈ R.map key := (List.nodup_cons.mp hR).1
    have hRnd : (R.map key).Nodup := (List.nodup_cons.mp hR).2
    rw [List.foldl_cons]
    have hkeys : (tableUpdate key l (key r) f).map key = l.map key := by
      unfold tableUpdate
      rw [List.map_map]
      refine map_congr_mem (fun e he => ?_)
      by_cases hc : key e = key r
      · simp [hc, hf]
      · simp [hc]
    have hl' : ((tableUpdate key l (key r) f).map key).Nodup := by
      rw [hkeys]; exact hl
    have hmem' : ∀ x ∈ R, x ∈ tableUpdate key l (key r) f := by
      intro x hx
      have hxl : x ∈ l := hmem x (List.mem_cons_of_mem r hx)
      have hxk : key x ≠ key r := by
        intro hcontra
        exact hRid (hcontra ▸ List.mem_map_of_mem key hx)
      unfold tableUpdate
      exact List.mem_map.mpr ⟨x, hxl, by rw [if_neg hxk]⟩
    rw [ih _ hl' hRnd hmem']
    unfold tableUpdate
    rw [List.map_map]
    refine map_congr_mem (fun a ha => ?_)
    simp only [Function.comp]
    by_cases hc : key a = key r
    · have har : a = r := List.inj_on_of_nodup_map hl ha hrl hc
      subst har
      rw [if_pos rfl, if_neg (by rw [hf]; exact hRid),
        if_pos (List.mem_map_of_mem key (List.mem_cons_self a R))]
    · rw [if_neg hc]
      by_cases hm : key a ∈ R.map key
      · rw [if_pos hm, if_pos (by rw [List.map_cons]; exact List.mem_cons_of_mem _ hm)]
      · rw [if_neg hm, if_neg (by
          rw [List.map_cons]
          intro hcon
          rcases List.mem_cons.mp hcon with h | h
          · exact hc h
          · exact hm h)]

/-- C10: `updateCollection` and `deleteCollection` refuse the owner's default
collection with a domain error and leave the store untouched; deleting a
non-default collection reassigns, in the same single state transition that
soft-deletes the collection, every non-deleted item of that collection to the
default collection, stamping it `pending` with `updatedAt = now`. -/
theorem collection_default_guard_and_reassign (slugifyFn : String → String)
    (st : Store) (id name : String) (now : Nat) (c : LocalCollection)
    (hget : tableGet (·.id) st.collections id = some c)
    (hnotdel : c.isDeleted = false) :
    (c.isDefault = true → name.trim ≠ "" →
      updateCollection slugifyFn st id name now =
        ({ success := false, error := some "Cannot rename default collection" }, st)) ∧
    (c.isDefault = true →
      deleteCollection st id now =
        ({ success := false, error := some "Cannot delete default collection" }, st)) ∧
    (c.isDefault = false →
      ∀ dc, st.collections.find? (fun x => x.isDefault && !x.isDeleted) = some dc →
        (st.items.map (·.id)).Nodup →
        deleteCollection st id now =
          ({ success := true },
            { st with
              items := st.items.map (fun e =>
                if e.collectionId == id && !e.isDeleted then
                  { e with
                    collectionId := dc.id
                    syncStatus := SyncStatus.pending
                    updatedAt := now }
                else e)
              collections := tableUpdate (·.id) st.collections id (fun x =>
                { x with
                  isDeleted := true
                  deletedAt := some now
                  syncStatus := SyncStatus.pending
                  updatedAt := now }) })) := by
  refine ⟨?_, ?_, ?_⟩
  · intro hdef htrim
    unfold updateCollection
    rw [if_neg htrim, hget]
    dsimp only
    rw [if_neg (by simp [hnotdel]), if_pos hdef]
  · intro hdef
    unfold deleteCollection
    rw [hget]
    dsimp only
    rw [if_neg (by simp [hnotdel]), if_pos hdef]
  · intro hdef dc hdc hnI
    unfold deleteCollection
    rw [hget]
    dsimp only
    rw [if_neg (by simp [hnotdel]), if_neg (by simp [hdef]), hdc]
    dsimp only
    have hRnd : ((st.items.filter
        (fun it => it.collectionId == id && !it.isDeleted)).map (·.id)).Nodup :=
      ((List.filter_sublist st.items).map (·.id)).nodup hnI
    have hmemR : ∀ r ∈ st.items.filter (fun it => it.collectionId == id && !it.isDeleted),
        r ∈ st.items := fun r hr => List.mem_of_mem_filter hr
    have hitems : (st.items.filter
          (fun it => it.collectionId == id && !it.isDeleted)).foldl
        (fun acc it => tableUpdate (·.id) acc it.id (fun x =>
          { x with
            collectionId := dc.id
            syncStatus := SyncStatus.pending
            updatedAt := now })) st.items =
        st.items.map (fun e =>
          if e.collectionId == id && !e.isDeleted then
            { e with
              collectionId := dc.id
              syncStatus := SyncStatus.pending
              updatedAt := now }
          else e) := by
      have hbase := @foldl_tableUpdate_eq_map _ _ _
        (fun e : LocalItem => e.id)
        (fun x => { x with
          collectionId := dc.id
          syncStatus := SyncStatus.pending
          updatedAt := now })
        (fun a => rfl)
        (st.items.filter (fun it => it.collectionId == id && !it.isDeleted))
        st.items hnI hRnd hmemR
      refine hbase.trans (map_congr_mem (fun e he => ?_))
      by_cases hp : (e.collectionId == id && !e.isDeleted) = true
      · have hmm : e ∈ st.items.filter (fun it => it.collectionId == id && !it.isDeleted) :=
          List.mem_filter.mpr ⟨he, hp⟩
        rw [if_pos (List.mem_map_of_mem (fun e : LocalItem => e.id) hmm), if_pos hp]
      · have hnc : ¬ e.id ∈ (st.items.filter
            (fun it => it.collectionId == id && !it.isDeleted)).map
              (fun e : LocalItem => e.id) := by
          intro hcon
          rcases List.mem_map.mp hcon with ⟨x, hxf, hxid⟩
          have hxl : x ∈ st.items := List.mem_of_mem_filter hxf
          have hxe : x = e := List.inj_on_of_nodup_map hnI hxl he hxid
          subst hxe
          exact hp ((List.mem_filter.mp hxf).2)
        rw [if_neg hnc, if_neg hp]
    rw [hitems]
/-- C10 witness: the guard conjuncts exercised at the default collection
`"cdef"`, and the reassignment conjunct exercised by deleting `"cdel"`. -/
theorem collection_default_guard_and_reassign_witness :
    ((tableGet (·.id) wStoreC10.collections "cdef" = some wDefaultCol ∧
        wDefaultCol.isDeleted = false) ∧
      ((wDefaultCol.isDefault = true → "New Name".trim ≠ "" →
        updateCollection (fun s => s) wStoreC10 "cdef" "New Name" 50 =
          ({ success := false, error := some "Cannot rename default collection" },
            wStoreC10)) ∧
      (wDefaultCol.isDefault = true →
        deleteCollection wStoreC10 "cdef" 50 =
          ({ success := false, error := some "Cannot delete default collection" },
            wStoreC10)) ∧
      (wDefaultCol.isDefault = false →
        ∀ dc, wStoreC10.collections.find? (fun x => x.isDefault && !x.isDeleted) = some dc →
          (wStoreC10.items.map (·.id)).Nodup →
          deleteCollection wStoreC10 "cdef" 50 =
            ({ success := true },
              { wStoreC10 with
                items := wStoreC10.items.map (fun e =>
                  if e.collectionId == "cdef" && !e.isDeleted then
                    { e with
                      collectionId := dc.id
                      syncStatus := SyncStatus.pending
                      updatedAt := 50 }
                  else e)
                collections := tableUpdate (·.id) wStoreC10.collections "cdef" (fun x =>
                  { x with
                    isDeleted := true
                    deletedAt := some 50
                    syncStatus := SyncStatus.pending
                    updatedAt := 50 }) })))) ∧
    ((tableGet (·.id) wStoreC10.collections "cdel" = some wDoomedCol ∧
        wDoomedCol.isDeleted = false) ∧
      ((wDoomedCol.isDefault = true → "New Name".trim ≠ "" →
        updateCollection (fun s => s) wStoreC10 "cdel" "New Name" 50 =
          ({ success := false, error := some "Cannot rename default collection" },
            wStoreC10)) ∧
      (wDoomedCol.isDefault = true →
        deleteCollection wStoreC10 "cdel" 50 =
          ({ success := false, error := some "Cannot delete default collection" },
            wStoreC10)) ∧
      (wDoomedCol.isDefault = false →
        ∀ dc, wStoreC10.collections.find? (fun x => x.isDefault && !x.isDeleted) = some dc →
          (wStoreC10.items.map (·.id)).Nodup →
          deleteCollection wStoreC10 "cdel" 50 =
            ({ success := true },
              { wStoreC10 with
                items := wStoreC10.items.map (fun e =>
                  if e.collectionId == "cdel" && !e.isDeleted then
                    { e with
                      collectionId := dc.id
                      syncStatus := SyncStatus.pending
                      updatedAt := 50 }
                  else e)
                collections := tableUpdate (·.id) wStoreC10.collections "cdel" (fun x =>
                  { x with
                    isDeleted := true
                    deletedAt := some 50
                    syncStatus := SyncStatus.pending
                    updatedAt := 50 }) })))) :=
  ⟨⟨⟨by decide, by decide⟩,
      collection_default_guard_and_reassign (fun s => s) wStoreC10 "cdef" "New Name" 50
        wDefaultCol (by decide) (by decide)⟩,
    ⟨⟨by decide, by decide⟩,
      collection_default_guard_and_reassign (fun s => s) wStoreC10 "cdel" "New Name" 50
        wDoomedCol (by decide) (by decide)⟩⟩

/-! ### C1 — success iff no chunk failed; failure isolation -/

theorem markAsSynced_ok_of_fields (now : Nat) (st : Store) (r : RawServerResponse)
    (h1 : (r.synced.getD ⟨none, none, none, none⟩).itemTags.isSome = true)
    (h2 : (r.deleted.getD ⟨none, none, none⟩).collections.isSome = true)
    (h3 : (r.deleted.getD ⟨none, none, none⟩).tags.isSome = true) :
    ∃ st', markAsSynced now st r = .ok st' ∧ st'.syncQueue = st.syncQueue := by
  simp only [markAsSynced]
  cases hsit : (r.synced.getD ⟨none, none, none, none⟩).itemTags with
  | none => rw [hsit] at h1; cases h1
  | some sit =>
    cases hdc : (r.deleted.getD ⟨none, none, none⟩).collections with
    | none => rw [hdc] at h2; cases h2
    | some dc =>
      cases hdt : (r.deleted.getD ⟨none, none, none⟩).tags with
      | none => rw [hdt] at h3; cases h3
      | some dt =>
        exact ⟨_, rfl, rfl⟩

theorem markAsSynced_error_of_missing (now : Nat) (st : Store) (r : RawServerResponse)
    (h : ¬((r.synced.getD ⟨none, none, none, none⟩).itemTags.isSome = true ∧
      (r.deleted.getD ⟨none, none, none⟩).collections.isSome = true ∧
      (r.deleted.getD ⟨none, none, none⟩).tags.isSome = true)) :
    markAsSynced now st r = .error "TypeError: Cannot read properties of undefined" := by
  simp only [markAsSynced]
  cases hsit : (r.synced.getD ⟨none, none, none, none⟩).itemTags with
  | none => rfl
  | some sit =>
    cases hdc : (r.deleted.getD ⟨none, none, none⟩).collections with
    | none => rfl
    | some dc =>
      cases hdt : (r.deleted.getD ⟨none, none, none⟩).tags with
      | none => rfl
      | some dt =>
        exact absurd ⟨by rw [hsit]; rfl, by rw [hdc]; rfl, by rw [hdt]; rfl⟩ h

theorem processChunk_accepted_effects (opts : SyncOptions) (env : SyncEnv)
    (acc : PushState) (chunk : SyncPayload) (i : Nat)
    (hacc : chunkAccepted (env.responses i) = true) :
    (processChunk opts env acc chunk i).errors = acc.errors ∧
    (processChunk opts env acc chunk i).store.syncQueue = acc.store.syncQueue := by
  unfold processChunk
  cases hresp : env.responses i with
  | error msg => rw [hresp] at hacc; simp [chunkAccepted] at hacc
  | ok r =>
    rw [hresp] at hacc
    unfold chunkAccepted at hacc
    simp only [Bool.and_eq_true] at hacc
    obtain ⟨⟨⟨hv, hsit⟩, hdc⟩, hdt⟩ := hacc
    rcases markAsSynced_ok_of_fields env.now acc.store r hsit hdc hdt with ⟨st', hok, hq⟩
    dsimp only
    rw [if_neg (by simp [hv]), hok]
    exact ⟨rfl, hq⟩

theorem processChunk_failed_eq (opts : SyncOptions) (env : SyncEnv)
    (acc : PushState) (chunk : SyncPayload) (i : Nat)
    (hacc : chunkAccepted (env.responses i) = false) :
    ∃ msg, processChunk opts env acc chunk i = chunkFailure opts env acc chunk i msg := by
  unfold processChunk
  cases hresp : env.responses i with
  | error msg => exact ⟨msg, rfl⟩
  | ok r =>
    rw [hresp] at hacc
    by_cases hv : validateServerResponse r = true
    · refine ⟨"TypeError: Cannot read properties of undefined", ?_⟩
      have hmiss : ¬((r.synced.getD ⟨none, none, none, none⟩).itemTags.isSome = true ∧
          (r.deleted.getD ⟨none, none, none⟩).collections.isSome = true ∧
          (r.deleted.getD ⟨none, none, none⟩).tags.isSome = true) := by
        intro ⟨hsit, hdc, hdt⟩
        rw [chunkAccepted, hv, hsit, hdc, hdt] at hacc
        cases hacc
      dsimp only
      rw [if_neg (by simp [hv]), markAsSynced_error_of_missing env.now acc.store r hmiss]
    · refine ⟨"Invalid server response format", ?_⟩
      have hvf : validateServerResponse r = false := by
        cases hb : validateServerResponse r
        · rfl
        · exact absurd hb hv
      dsimp only
      rw [if_pos (by simp [hvf])]

theorem pushChunks_spec (opts : SyncOptions) (env : SyncEnv) :
    ∀ (chunks : List SyncPayload) (i0 : Nat) (acc : PushState),
      ((pushChunks opts env chunks i0 acc).errors = [] ↔
        (acc.errors = [] ∧ ∀ j, j < chunks.length →
          chunkAccepted (env.responses (i0 + j)) = true)) ∧
      (∃ tail, (pushChunks opts env chunks i0 acc).store.syncQueue =
          acc.store.syncQueue ++ tail ∧
        tail.map (·.data) = failedChunksFrom env chunks i0 ∧
        ∀ en ∈ tail, en.retryCount = 0 ∧ en.maxRetries = opts.maxRetries ∧
          en.nextRetryAt = some (env.now + opts.retryDelayMs)) := by
  intro chunks
  induction chunks with
  | nil =>
    intro i0 acc
    constructor
    · simp [pushChunks]
    · exact ⟨[], by simp [pushChunks], by simp [failedChunksFrom], by simp⟩
  | cons c cs ih =>
    intro i0 acc
    rw [show pushChunks opts env (c :: cs) i0 acc =
      pushChunks opts env cs (i0 + 1) (processChunk opts env acc c i0) from rfl]
    by_cases hacc : chunkAccepted (env.responses i0) = true
    · obtain ⟨herr, hq⟩ := processChunk_accepted_effects opts env acc c i0 hacc
      constructor
      · rw [(ih (i0 + 1) (processChunk opts env acc c i0)).1, herr]
        constructor
        · rintro ⟨ha, hrest⟩
          refine ⟨ha, fun j hj => ?_⟩
          cases j with
          | zero => simpa using hacc
          | succ k =>
            have hk : k < cs.length := by
              simp only [List.length_cons] at hj
              omega
            have := hrest k hk
            simpa [Nat.add_assoc, Nat.add_comm 1 k] using this
        · rintro ⟨ha, hall⟩
          refine ⟨ha, fun k hk => ?_⟩
          have := hall (k + 1) (by simp only [List.length_cons]; omega)
          simpa [Nat.add_assoc, Nat.add_comm 1 k] using this
      · obtain ⟨tail, ht1, ht2, ht3⟩ := (ih (i0 + 1) (processChunk opts env acc c i0)).2
        refine ⟨tail, ?_, ?_, ht3⟩
        · rw [ht1, hq]
        · rw [ht2]
          have hstep : failedChunksFrom env (c :: cs) i0 =
              if chunkAccepted (env.responses i0) then failedChunksFrom env cs (i0 + 1)
              else c :: failedChunksFrom env cs (i0 + 1) := rfl
          rw [hstep, if_pos hacc]
    · have haccf : chunkAccepted (env.responses i0) = false := by
        cases hb : chunkAccepted (env.responses i0)
        · rfl
        · exact absurd hb hacc
      obtain ⟨msg, hpc⟩ := processChunk_failed_eq opts env acc c i0 haccf
      rw [hpc]
      constructor
      · rw [(ih (i0 + 1) (chunkFailure opts env acc c i0 msg)).1]
        have herr : (chunkFailure opts env acc c i0 msg).errors =
            acc.errors ++ ["Chunk sync failed: " ++ msg] := rfl
        rw [herr]
        constructor
        · rintro ⟨ha, _⟩
          exact absurd ha (by simp)
        · rintro ⟨_, hall⟩
          have := hall 0 (by simp)
          rw [Nat.add_zero] at this
          exact absurd this (by simp [haccf])
      · obtain ⟨tail, ht1, ht2, ht3⟩ := (ih (i0 + 1) (chunkFailure opts env acc c i0 msg)).2
        refine ⟨{ id := env.uuids i0
                  operation := "create"
                  entity := "item"
                  entityId := "batch_sync"
                  data := c
                  retryCount := 0
                  maxRetries := opts.maxRetries
                  nextRetryAt := some (env.now + opts.retryDelayMs)
                  error := some msg
                  createdAt := env.now } :: tail, ?_, ?_, ?_⟩
        · rw [ht1]
          have hcq : (chunkFailure opts env acc c i0 msg).store.syncQueue =
              acc.store.syncQueue ++
                [{ id := env.uuids i0
                   operation := "create"
                   entity := "item"
                   entityId := "batch_sync"
                   data := c
                   retryCount := 0
                   maxRetries := opts.maxRetries
                   nextRetryAt := some (env.now + opts.retryDelayMs)
                   error := some msg
                   createdAt := env.now }] := rfl
          rw [hcq, List.append_assoc]
          rfl
        · rw [List.map_cons, ht2]
          have hstep : failedChunksFrom env (c :: cs) i0 =
              if chunkAccepted (env.responses i0) then failedChunksFrom env cs (i0 + 1)
              else c :: failedChunksFrom env cs (i0 + 1) := rfl
          rw [hstep, if_neg (by simp [haccf])]
        · intro en hen
          rcases List.mem_cons.mp hen with rfl | hen'
          · exact ⟨rfl, rfl, rfl⟩
          · exact ht3 en hen'

theorem mergeItems_syncQueue (now : Nat) (st : Store) (ss : List LocalItem) :
    (mergeItems now st ss).syncQueue = st.syncQueue := by
  unfold mergeItems
  split <;> rfl

theorem mergeCollections_syncQueue (now : Nat) (st : Store) (ss : List LocalCollection) :
    (mergeCollections now st ss).syncQueue = st.syncQueue := by
  unfold mergeCollections
  split <;> rfl

theorem mergeTags_syncQueue (now : Nat) (st : Store) (ss : List LocalTag) :
    (mergeTags now st ss).syncQueue = st.syncQueue := by
  unfold mergeTags
  split <;> rfl

theorem mergeItemTags_syncQueue (st : Store) (ss : List LocalItemTag) :
    (mergeItemTags st ss).syncQueue = st.syncQueue := by
  unfold mergeItemTags
  split <;> rfl

/-- The pull phase never touches the retry queue. -/
theorem pullServerChanges_syncQueue (st : Store) (env : SyncEnv) :
    (pullServerChanges st env).syncQueue = st.syncQueue := by
  unfold pullServerChanges
  cases henv : env.pullData with
  | none => rfl
  | some d =>
    rw [mergeItemTags_syncQueue, mergeTags_syncQueue, mergeCollections_syncQueue,
      mergeItems_syncQueue]

/-- The push loop reads only `responses`, `uuids` and `now` of the
environment, so the pull body is irrelevant to it. -/
theorem pushChunks_pullData_irrelevant (opts : SyncOptions) (env : SyncEnv)
    (p : Option SyncPayload) :
    ∀ (chunks : List SyncPayload) (i : Nat) (acc : PushState),
      pushChunks opts { env with pullData := p } chunks i acc =
        pushChunks opts env chunks i acc := by
  intro chunks
  induction chunks with
  | nil => intro i acc; rfl
  | cons c cs ih =>
    intro i acc
    have hpc : processChunk opts { env with pullData := p } acc c i =
        processChunk opts env acc c i := rfl
    rw [show pushChunks opts { env with pullData := p } (c :: cs) i acc =
      pushChunks opts { env with pullData := p } cs (i + 1)
        (processChunk opts { env with pullData := p } acc c i) from rfl]
    rw [hpc, ih]
    rfl

theorem contains_iff_mem [DecidableEq β] {l : List β} {b : β} :
    l.contains b = true ↔ b ∈ l := by
  simp

/-- `bulkUpdateWhere` spelled with list membership instead of `contains`. -/
theorem bulkUpdateWhere_eq_map_mem [DecidableEq κ] (key : α → κ) (ks : List κ)
    (f : α → α) (l : List α) :
    bulkUpdateWhere key ks f l = l.map (fun e => if key e ∈ ks then f e else e) := by
  unfold bulkUpdateWhere
  refine map_congr_mem (fun e he => ?_)
  by_cases h : key e ∈ ks
  · have hc : ks.contains (key e) = true := by simpa using h
    rw [if_pos hc, if_pos h]
  · have hc : ¬ ks.contains (key e) = true := by simpa using h
    rw [if_neg hc, if_neg h]

/-- C1: a sync cycle (not rejected by the in-flight guard) reports
`success = true` iff every transmitted chunk was accepted; the pull body of
the environment never changes the reported success; the retry queue after
the cycle is the queue left by the retry scheduler extended by exactly one
fresh entry (retryCount 0, `nextRetryAt = now + baseDelay`) per failed chunk,
carrying that chunk — so one chunk's failure neither aborts the loop nor
suppresses the processing of its siblings; and a failed chunk's step is
exactly the failure arm, which restamps precisely that chunk's entities
`error` (with the failure message as `syncError` on items, collections and
tags) and leaves every other row of every table untouched. -/
theorem sync_success_iff_no_chunk_failed (opts : SyncOptions) (st : Store) (env : SyncEnv) :
    ((syncRun opts false st env).1.success = true ↔
      ∀ i, i < (plannedChunks opts st env).length →
        chunkAccepted (env.responses i) = true) ∧
    (∀ p, (syncRun opts false st { env with pullData := p }).1.success =
      (syncRun opts false st env).1.success) ∧
    (∃ tail, (syncRun opts false st env).2.syncQueue =
        (processRetryQueue opts st env.now).syncQueue ++ tail ∧
      tail.map (·.data) = failedChunksFrom env (plannedChunks opts st env) 0 ∧
      ∀ en ∈ tail, en.retryCount = 0 ∧ en.maxRetries = opts.maxRetries ∧
        en.nextRetryAt = some (env.now + opts.retryDelayMs)) ∧
    (∀ (acc : PushState) (chunk : SyncPayload) (i : Nat),
      chunkAccepted (env.responses i) = false →
      ∃ msg,
        processChunk opts env acc chunk i = chunkFailure opts env acc chunk i msg ∧
        (processChunk opts env acc chunk i).store.items =
          acc.store.items.map (fun e =>
            if e.id ∈ chunk.items.map (fun x => x.id) then
              { e with syncStatus := SyncStatus.error, syncError := some msg }
            else e) ∧
        (processChunk opts env acc chunk i).store.collections =
          acc.store.collections.map (fun e =>
            if e.id ∈ chunk.collections.map (fun x => x.id) then
              { e with syncStatus := SyncStatus.error, syncError := some msg }
            else e) ∧
        (processChunk opts env acc chunk i).store.tags =
          acc.store.tags.map (fun e =>
            if e.id ∈ chunk.tags.map (fun x => x.id) then
              { e with syncStatus := SyncStatus.error, syncError := some msg }
            else e) ∧
        (processChunk opts env acc chunk i).store.itemTags =
          acc.store.itemTags.map (fun e =>
            if itemTagKey e ∈ chunk.itemTags.map itemTagKey then
              { e with syncStatus := SyncStatus.error }
            else e)) := by
  have hD : ∀ (acc : PushState) (chunk : SyncPayload) (i : Nat),
      chunkAccepted (env.responses i) = false →
      ∃ msg,
        processChunk opts env acc chunk i = chunkFailure opts env acc chunk i msg ∧
        (processChunk opts env acc chunk i).store.items =
          acc.store.items.map (fun e =>
            if e.id ∈ chunk.items.map (fun x => x.id) then
              { e with syncStatus := SyncStatus.error, syncError := some msg }
            else e) ∧
        (processChunk opts env acc chunk i).store.collections =
          acc.store.collections.map (fun e =>
            if e.id ∈ chunk.collections.map (fun x => x.id) then
              { e with syncStatus := SyncStatus.error, syncError := some msg }
            else e) ∧
        (processChunk opts env acc chunk i).store.tags =
          acc.store.tags.map (fun e =>
            if e.id ∈ chunk.tags.map (fun x => x.id) then
              { e with syncStatus := SyncStatus.error, syncError := some msg }
            else e) ∧
        (processChunk opts env acc chunk i).store.itemTags =
          acc.store.itemTags.map (fun e =>
            if itemTagKey e ∈ chunk.itemTags.map itemTagKey then
              { e with syncStatus := SyncStatus.error }
            else e) := by
    intro acc chunk i hacc
    obtain ⟨msg, heq⟩ := processChunk_failed_eq opts env acc chunk i hacc
    refine ⟨msg, heq, ?_, ?_, ?_, ?_⟩
    · rw [heq]
      show bulkUpdateWhere (fun e : LocalItem => e.id)
        (chunk.items.map (fun x => x.id))
        (fun e => { e with syncStatus := SyncStatus.error, syncError := some msg })
        acc.store.items = _
      exact bulkUpdateWhere_eq_map_mem _ _ _ _
    · rw [heq]
      show bulkUpdateWhere (fun e : LocalCollection => e.id)
        (chunk.collections.map (fun x => x.id))
        (fun e => { e with syncStatus := SyncStatus.error, syncError := some msg })
        acc.store.collections = _
      exact bulkUpdateWhere_eq_map_mem _ _ _ _
    · rw [heq]
      show bulkUpdateWhere (fun e : LocalTag => e.id)
        (chunk.tags.map (fun x => x.id))
        (fun e => { e with syncStatus := SyncStatus.error, syncError := some msg })
        acc.store.tags = _
      exact bulkUpdateWhere_eq_map_mem _ _ _ _
    · rw [heq]
      show bulkUpdateWhere itemTagKey (chunk.itemTags.map itemTagKey)
        (fun e => { e with syncStatus := SyncStatus.error })
        acc.store.itemTags = _
      unfold bulkUpdateWhere
      refine map_congr_mem (fun e he => ?_)
      split
      · next hcont => rw [if_pos (contains_iff_mem.mp hcont)]
      · next hcont => rw [if_neg (fun hm => hcont (contains_iff_mem.mpr hm))]
  by_cases hemp : isPayloadEmpty (gatherPendingData (processRetryQueue opts st env.now)) = true
  · have hrun : syncRun opts false st env =
        (zeroResult true [], pullServerChanges (processRetryQueue opts st env.now) env) := by
      unfold syncRun
      rw [if_neg Bool.false_ne_true, if_pos hemp]
    have hplanned : plannedChunks opts st env = [] := by
      unfold plannedChunks
      rw [if_pos hemp]
    refine ⟨?_, ?_, ?_, hD⟩
    · rw [hrun, hplanned]
      simp [zeroResult]
    · intro p
      have hrun' : syncRun opts false st { env with pullData := p } =
          (zeroResult true [],
            pullServerChanges (processRetryQueue opts st env.now)
              { env with pullData := p }) := by
        unfold syncRun
        dsimp only
        rw [if_neg Bool.false_ne_true, if_pos hemp]
      rw [hrun, hrun']
    · refine ⟨[], ?_, by rw [hplanned]; rfl, by simp⟩
      rw [hrun, List.append_nil]
      exact pullServerChanges_syncQueue _ env
  · have hrun : syncRun opts false st env =
        (let ps := pushChunks opts env
          (chunkPayload opts.chunkSize
            (gatherPendingData (processRetryQueue opts st env.now))) 0
          { store := markAsSyncing (processRetryQueue opts st env.now)
              (gatherPendingData (processRetryQueue opts st env.now)) }
         ({ success := ps.errors.isEmpty
            itemsSynced := ps.itemsSynced
            collectionsSynced := ps.collectionsSynced
            tagsSynced := ps.tagsSynced
            itemsDeleted := ps.itemsDeleted
            collectionsDeleted := ps.collectionsDeleted
            tagsDeleted := ps.tagsDeleted
            errors := ps.errors
            warnings := ps.warnings }, pullServerChanges ps.store env)) := by
      unfold syncRun
      rw [if_neg Bool.false_ne_true, if_neg hemp]
    have hplanned : plannedChunks opts st env =
        chunkPayload opts.chunkSize
          (gatherPendingData (processRetryQueue opts st env.now)) := by
      unfold plannedChunks
      rw [if_neg hemp]
    have hempty_iff : ∀ l : List String, (l.isEmpty = true) ↔ l = [] := by
      intro l
      cases l <;> simp
    have hspec := pushChunks_spec opts env
      (chunkPayload opts.chunkSize
        (gatherPendingData (processRetryQueue opts st env.now))) 0
      { store := markAsSyncing (processRetryQueue opts st env.now)
          (gatherPendingData (processRetryQueue opts st env.now)) }
    refine ⟨?_, ?_, ?_, hD⟩
    · rw [hrun, hplanned]
      show (pushChunks opts env _ 0 _).errors.isEmpty = true ↔ _
      rw [hempty_iff, hspec.1]
      simp
    · intro p
      have hrun' : syncRun opts false st { env with pullData := p } =
          (let ps := pushChunks opts { env with pullData := p }
            (chunkPayload opts.chunkSize
              (gatherPendingData (processRetryQueue opts st env.now))) 0
            { store := markAsSyncing (processRetryQueue opts st env.now)
                (gatherPendingData (processRetryQueue opts st env.now)) }
           ({ success := ps.errors.isEmpty
              itemsSynced := ps.itemsSynced
              collectionsSynced := ps.collectionsSynced
              tagsSynced := ps.tagsSynced
              itemsDeleted := ps.itemsDeleted
              collectionsDeleted := ps.collectionsDeleted
              tagsDeleted := ps.tagsDeleted
              errors := ps.errors
              warnings := ps.warnings },
            pullServerChanges ps.store { env with pullData := p })) := by
        unfold syncRun
        dsimp only
        rw [if_neg Bool.false_ne_true, if_neg hemp]
      rw [hrun, hrun']
      show (pushChunks opts { env with pullData := p } _ 0 _).errors.isEmpty =
        (pushChunks opts env _ 0 _).errors.isEmpty
      rw [pushChunks_pullData_irrelevant]
    · obtain ⟨tail, ht1, ht2, ht3⟩ := hspec.2
      refine ⟨tail, ?_, by rw [hplanned]; exact ht2, ht3⟩
      rw [hrun]
      show (pullServerChanges (pushChunks opts env _ 0 _).store env).syncQueue = _
      rw [pullServerChanges_syncQueue, ht1]
      rfl

/-! ### C8 — a second sync right after a fully acknowledged one -/



/-- An empty collected batch means no entity is in a pending or error state. -/
theorem all_good_of_isPayloadEmpty (st : Store)
    (h : isPayloadEmpty (gatherPendingData st) = true) :
    (∀ e ∈ st.items, isPendingOrError e.syncStatus = false) ∧
    (∀ e ∈ st.collections, isPendingOrError e.syncStatus = false) ∧
    (∀ e ∈ st.tags, isPendingOrError e.syncStatus = false) ∧
    (∀ e ∈ st.itemTags, isPendingOrError e.syncStatus = false) := by
  unfold isPayloadEmpty gatherPendingData at h
  simp only [Bool.and_eq_true, beq_iff_eq, List.length_eq_zero, List.length_map,
    List.filter_eq_nil_iff] at h
  obtain ⟨⟨⟨⟨⟨⟨hit, hcol⟩, htag⟩, hlink⟩, hdi⟩, hdc⟩, hdt⟩ := h
  refine ⟨?_, ?_, ?_, ?_⟩
  · intro e he
    cases hp : isPendingOrError e.syncStatus with
    | false => rfl
    | true =>
      exfalso
      cases hd : e.isDeleted with
      | false =>
        have h1 := hit e he
        simp [hp, hd] at h1
      | true =>
        have h1 := hdi e he
        simp [hp, hd] at h1
  · intro e he
    cases hp : isPendingOrError e.syncStatus with
    | false => rfl
    | true =>
      exfalso
      cases hd : e.isDeleted with
      | false =>
        have h1 := hcol e he
        simp [hp, hd] at h1
      | true =>
        have h1 := hdc e he
        simp [hp, hd] at h1
  · intro e he
    cases hp : isPendingOrError e.syncStatus with
    | false => rfl
    | true =>
      exfalso
      cases hd : e.isDeleted with
      | false =>
        have h1 := htag e he
        simp [hp, hd] at h1
      | true =>
        have h1 := hdt e he
        simp [hp, hd] at h1
  · intro e he
    cases hp : isPendingOrError e.syncStatus with
    | false => rfl
    | true =>
      exfalso
      have h1 := hlink e he
      simp [hp] at h1

/-- After `markAsSyncing`, an item is no longer pending/error unless it is a
soft-deleted one, in which case its id is in the batch's deletion list. -/
theorem markAsSyncing_items_cases (st1 : Store) :
    ∀ e ∈ (markAsSyncing st1 (gatherPendingData st1)).items,
      isPendingOrError e.syncStatus = false ∨
        e.id ∈ (gatherPendingData st1).deletions.itemIds := by
  intro e he
  rcases List.mem_map.mp he with ⟨e0, he0, hg⟩
  dsimp only at hg
  by_cases hcont : ((gatherPendingData st1).items.map (·.id)).contains e0.id = true
  · rw [if_pos hcont] at hg
    left
    rw [← hg]
    rfl
  · rw [if_neg hcont] at hg
    subst hg
    cases hp : isPendingOrError e0.syncStatus with
    | false => exact Or.inl rfl
    | true =>
      cases hd : e0.isDeleted with
      | true =>
        right
        have hmem : e0 ∈ st1.items.filter
            (fun i => isPendingOrError i.syncStatus && i.isDeleted) :=
          List.mem_filter.mpr ⟨he0, by simp [hp, hd]⟩
        exact List.mem_map_of_mem (fun i : LocalItem => i.id) hmem
      | false =>
        exfalso
        refine hcont (contains_iff_mem.mpr ?_)
        have hmem : e0 ∈ st1.items.filter
            (fun i => isPendingOrError i.syncStatus && !i.isDeleted) :=
          List.mem_filter.mpr ⟨he0, by simp [hp, hd]⟩
        exact List.mem_map_of_mem (fun i : LocalItem => i.id) hmem

theorem markAsSyncing_collections_cases (st1 : Store) :
    ∀ e ∈ (markAsSyncing st1 (gatherPendingData st1)).collections,
      isPendingOrError e.syncStatus = false ∨
        e.id ∈ (gatherPendingData st1).deletions.collectionIds := by
  intro e he
  rcases List.mem_map.mp he with ⟨e0, he0, hg⟩
  dsimp only at hg
  by_cases hcont : ((gatherPendingData st1).collections.map (·.id)).contains e0.id = true
  · rw [if_pos hcont] at hg
    left
    rw [← hg]
    rfl
  · rw [if_neg hcont] at hg
    subst hg
    cases hp : isPendingOrError e0.syncStatus with
    | false => exact Or.inl rfl
    | true =>
      cases hd : e0.isDeleted with
      | true =>
        right
        have hmem : e0 ∈ st1.collections.filter
            (fun c => isPendingOrError c.syncStatus && c.isDeleted) :=
          List.mem_filter.mpr ⟨he0, by simp [hp, hd]⟩
        exact List.mem_map_of_mem (fun c : LocalCollection => c.id) hmem
      | false =>
        exfalso
        refine hcont (contains_iff_mem.mpr ?_)
        have hmem : e0 ∈ st1.collections.filter
            (fun c => isPendingOrError c.syncStatus && !c.isDeleted) :=
          List.mem_filter.mpr ⟨he0, by simp [hp, hd]⟩
        exact List.mem_map_of_mem (fun c : LocalCollection => c.id) hmem

theorem markAsSyncing_tags_cases (st1 : Store) :
    ∀ e ∈ (markAsSyncing st1 (gatherPendingData st1)).tags,
      isPendingOrError e.syncStatus = false ∨
        e.id ∈ (gatherPendingData st1).deletions.tagIds := by
  intro e he
  rcases List.mem_map.mp he with ⟨e0, he0, hg⟩
  dsimp only at hg
  by_cases hcont : ((gatherPendingData st1).tags.map (·.id)).contains e0.id = true
  · rw [if_pos hcont] at hg
    left
    rw [← hg]
    rfl
  · rw [if_neg hcont] at hg
    subst hg
    cases hp : isPendingOrError e0.syncStatus with
    | false => exact Or.inl rfl
    | true =>
      cases hd : e0.isDeleted with
      | true =>
        right
        have hmem : e0 ∈ st1.tags.filter
            (fun t => isPendingOrError t.syncStatus && t.isDeleted) :=
          List.mem_filter.mpr ⟨he0, by simp [hp, hd]⟩
        exact List.mem_map_of_mem (fun t : LocalTag => t.id) hmem
      | false =>
        exfalso
        refine hcont (contains_iff_mem.mpr ?_)
        have hmem : e0 ∈ st1.tags.filter
            (fun t => isPendingOrError t.syncStatus && !t.isDeleted) :=
          List.mem_filter.mpr ⟨he0, by simp [hp, hd]⟩
        exact List.mem_map_of_mem (fun t : LocalTag => t.id) hmem

/-- After `markAsSyncing`, no itemTag link is pending/error. -/
theorem markAsSyncing_itemTags_good (st1 : Store) :
    ∀ e ∈ (markAsSyncing st1 (gatherPendingData st1)).itemTags,
      isPendingOrError e.syncStatus = false := by
  intro e he
  rcases List.mem_map.mp he with ⟨e0, he0, hg⟩
  dsimp only at hg
  split at hg
  · rw [← hg]
    rfl
  · next hcont =>
    subst hg
    cases hp : isPendingOrError e0.syncStatus with
    | false => rfl
    | true =>
      exfalso
      refine hcont (contains_iff_mem.mpr ?_)
      have hmem : e0 ∈ st1.itemTags.filter
          (fun it => isPendingOrError it.syncStatus) :=
        List.mem_filter.mpr ⟨he0, by simp [hp]⟩
      exact List.mem_map_of_mem itemTagKey hmem

/-- Rows of the store after a successful `markAsSynced`: each is an original
row, possibly restamped `synced`, and its id survived the deletion pass. -/
theorem markAsSynced_ok_mem (now : Nat) (st : Store) (r : RawServerResponse)
    (st' : Store) (hok : markAsSynced now st r = .ok st') :
    (∀ e' ∈ st'.items, (∃ e ∈ st.items, e' = e ∨
        e' = { e with syncStatus := SyncStatus.synced
                      lastSyncedAt := some now
                      syncError := none }) ∧
      ¬ e'.id ∈ (r.deleted.getD ⟨none, none, none⟩).items.getD []) ∧
    (∀ e' ∈ st'.collections, (∃ e ∈ st.collections, e' = e ∨
        e' = { e with syncStatus := SyncStatus.synced
                      lastSyncedAt := some now
                      syncError := none }) ∧
      ¬ e'.id ∈ ((r.deleted.getD ⟨none, none, none⟩).collections.getD [])) ∧
    (∀ e' ∈ st'.tags, (∃ e ∈ st.tags, e' = e ∨
        e' = { e with syncStatus := SyncStatus.synced
                      lastSyncedAt := some now
                      syncError := none }) ∧
      ¬ e'.id ∈ ((r.deleted.getD ⟨none, none, none⟩).tags.getD [])) ∧
    (∀ e' ∈ st'.itemTags, ∃ e ∈ st.itemTags, e' = e ∨
        e' = { e with syncStatus := SyncStatus.synced }) := by
  simp only [markAsSynced] at hok
  cases hsit : (r.synced.getD ⟨none, none, none, none⟩).itemTags with
  | none => rw [hsit] at hok; cases hok
  | some sit =>
  cases hdc : (r.deleted.getD ⟨none, none, none⟩).collections with
  | none => rw [hsit, hdc] at hok; cases hok
  | some dc =>
  cases hdt : (r.deleted.getD ⟨none, none, none⟩).tags with
  | none => rw [hsit, hdc, hdt] at hok; cases hok
  | some dt =>
  rw [hsit, hdc, hdt] at hok
  dsimp only at hok
  cases hok
  refine ⟨?_, ?_, ?_, ?_⟩
  · intro e' he'
    have hf := List.mem_filter.mp he'
    rcases mem_bulkUpdateWhere hf.1 with ⟨e, he, hcase⟩
    exact ⟨⟨e, he, hcase⟩, by simpa using hf.2⟩
  · intro e' he'
    have hf := List.mem_filter.mp he'
    rcases mem_bulkUpdateWhere hf.1 with ⟨e, he, hcase⟩
    exact ⟨⟨e, he, hcase⟩, by simpa using hf.2⟩
  · intro e' he'
    have hf := List.mem_filter.mp he'
    rcases mem_bulkUpdateWhere hf.1 with ⟨e, he, hcase⟩
    exact ⟨⟨e, he, hcase⟩, by simpa using hf.2⟩
  · intro e' he'
    exact mem_bulkUpdateWhere he'

/-- The pull merges only ever add or substitute rows stamped `synced`, so they
preserve "no row is pending or error". -/
theorem mergeItems_mem_cases (now : Nat) (st : Store) (ss : List LocalItem) :
    ∀ e' ∈ (mergeItems now st ss).items,
      e' ∈ st.items ∨ e'.syncStatus = SyncStatus.synced := by
  intro e' he'
  rw [mergeItems_items_eq] at he'
  rcases mem_bulkPut he' with h | h
  · exact Or.inl h
  · rcases List.mem_filterMap.mp h with ⟨s, _, hFs⟩
    right
    cases hfind : tableGet (·.id) st.items s.id with
    | none => rw [hfind] at hFs; cases hFs; rfl
    | some l =>
      rw [hfind] at hFs
      dsimp only at hFs
      by_cases hc : l.updatedAt < s.updatedAt
      · rw [if_pos hc] at hFs; cases hFs; rfl
      · rw [if_neg hc] at hFs; cases hFs

theorem mergeCollections_mem_cases (now : Nat) (st : Store) (ss : List LocalCollection) :
    ∀ e' ∈ (mergeCollections now st ss).collections,
      e' ∈ st.collections ∨ e'.syncStatus = SyncStatus.synced := by
  intro e' he'
  rw [mergeCollections_collections_eq] at he'
  rcases mem_bulkPut he' with h | h
  · exact Or.inl h
  · rcases List.mem_filterMap.mp h with ⟨s, _, hFs⟩
    right
    cases hfind : tableGet (·.id) st.collections s.id with
    | none => rw [hfind] at hFs; cases hFs; rfl
    | some l =>
      rw [hfind] at hFs
      dsimp only at hFs
      by_cases hc : l.updatedAt < s.updatedAt
      · rw [if_pos hc] at hFs; cases hFs; rfl
      · rw [if_neg hc] at hFs; cases hFs

theorem mergeTags_mem_cases (now : Nat) (st : Store) (ss : List LocalTag) :
    ∀ e' ∈ (mergeTags now st ss).tags,
      e' ∈ st.tags ∨ e'.syncStatus = SyncStatus.synced := by
  intro e' he'
  rw [mergeTags_tags_eq] at he'
  rcases mem_bulkPut he' with h | h
  · exact Or.inl h
  · rcases List.mem_filterMap.mp h with ⟨s, _, hFs⟩
    right
    cases hfind : tableGet (·.id) st.tags s.id with
    | none => rw [hfind] at hFs; cases hFs; rfl
    | some l =>
      rw [hfind] at hFs
      dsimp only at hFs
      by_cases hc : s.updatedAt ≠ 0 ∧ l.updatedAt ≠ 0 ∧ l.updatedAt < s.updatedAt
      · rw [if_pos hc] at hFs; cases hFs; rfl
      · rw [if_neg hc] at hFs; cases hFs

theorem mergeItemTags_mem_cases (st : Store) (ss : List LocalItemTag) :
    ∀ e' ∈ (mergeItemTags st ss).itemTags,
      e' ∈ st.itemTags ∨ e'.syncStatus = SyncStatus.synced := by
  intro e' he'
  rw [mergeItemTags_itemTags_eq] at he'
  rcases mem_bulkPut he' with h | h
  · exact Or.inl h
  · rcases List.mem_filterMap.mp h with ⟨s, _, hFs⟩
    right
    cases hfind : tableGet itemTagKey st.itemTags (itemTagKey s) with
    | none => rw [hfind] at hFs; cases hFs; rfl
    | some l => rw [hfind] at hFs; cases hFs

theorem mergeItems_other_tables (now : Nat) (st : Store) (ss : List LocalItem) :
    (mergeItems now st ss).collections = st.collections ∧
    (mergeItems now st ss).tags = st.tags ∧
    (mergeItems now st ss).itemTags = st.itemTags := by
  unfold mergeItems
  split <;> exact ⟨rfl, rfl, rfl⟩

theorem mergeCollections_other_tables (now : Nat) (st : Store) (ss : List LocalCollection) :
    (mergeCollections now st ss).items = st.items ∧
    (mergeCollections now st ss).tags = st.tags ∧
    (mergeCollections now st ss).itemTags = st.itemTags := by
  unfold mergeCollections
  split <;> exact ⟨rfl, rfl, rfl⟩

theorem mergeTags_other_tables (now : Nat) (st : Store) (ss : List LocalTag) :
    (mergeTags now st ss).items = st.items ∧
    (mergeTags now st ss).collections = st.collections ∧
    (mergeTags now st ss).itemTags = st.itemTags := by
  unfold mergeTags
  split <;> exact ⟨rfl, rfl, rfl⟩

theorem mergeItemTags_other_tables (st : Store) (ss : List LocalItemTag) :
    (mergeItemTags st ss).items = st.items ∧
    (mergeItemTags st ss).collections = st.collections ∧
    (mergeItemTags st ss).tags = st.tags := by
  unfold mergeItemTags
  split <;> exact ⟨rfl, rfl, rfl⟩

/-- The pull phase preserves "no row is pending or error". -/
theorem pullServerChanges_all_good (st : Store) (env : SyncEnv)
    (hI : ∀ e ∈ st.items, isPendingOrError e.syncStatus = false)
    (hC : ∀ e ∈ st.collections, isPendingOrError e.syncStatus = false)
    (hT : ∀ e ∈ st.tags, isPendingOrError e.syncStatus = false)
    (hL : ∀ e ∈ st.itemTags, isPendingOrError e.syncStatus = false) :
    (∀ e ∈ (pullServerChanges st env).items, isPendingOrError e.syncStatus = false) ∧
    (∀ e ∈ (pullServerChanges st env).collections, isPendingOrError e.syncStatus = false) ∧
    (∀ e ∈ (pullServerChanges st env).tags, isPendingOrError e.syncStatus = false) ∧
    (∀ e ∈ (pullServerChanges st env).itemTags, isPendingOrError e.syncStatus = false) := by
  unfold pullServerChanges
  cases henv : env.pullData with
  | none => exact ⟨hI, hC, hT, hL⟩
  | some d =>
    set s1 := mergeItems env.now st d.items with hs1
    set s2 := mergeCollections env.now s1 d.collections with hs2
    set s3 := mergeTags env.now s2 d.tags with hs3
    have h1I : ∀ e ∈ s1.items, isPendingOrError e.syncStatus = false := by
      intro e he
      rcases mergeItems_mem_cases env.now st d.items e he with h | h
      · exact hI e h
      · rw [h]; rfl
    have h1C : ∀ e ∈ s1.collections, isPendingOrError e.syncStatus = false := by
      rw [hs1, (mergeItems_other_tables env.now st d.items).1]; exact hC
    have h1T : ∀ e ∈ s1.tags, isPendingOrError e.syncStatus = false := by
      rw [hs1, (mergeItems_other_tables env.now st d.items).2.1]; exact hT
    have h1L : ∀ e ∈ s1.itemTags, isPendingOrError e.syncStatus = false := by
      rw [hs1, (mergeItems_other_tables env.now st d.items).2.2]; exact hL
    have h2C : ∀ e ∈ s2.collections, isPendingOrError e.syncStatus = false := by
      intro e he
      rcases mergeCollections_mem_cases env.now s1 d.collections e he with h | h
      · exact h1C e h
      · rw [h]; rfl
    have h2I : ∀ e ∈ s2.items, isPendingOrError e.syncStatus = false := by
      rw [hs2, (mergeCollections_other_tables env.now s1 d.collections).1]; exact h1I
    have h2T : ∀ e ∈ s2.tags, isPendingOrError e.syncStatus = false := by
      rw [hs2, (mergeCollections_other_tables env.now s1 d.collections).2.1]; exact h1T
    have h2L : ∀ e ∈ s2.itemTags, isPendingOrError e.syncStatus = false := by
      rw [hs2, (mergeCollections_other_tables env.now s1 d.collections).2.2]; exact h1L
    have h3T : ∀ e ∈ s3.tags, isPendingOrError e.syncStatus = false := by
      intro e he
      rcases mergeTags_mem_cases env.now s2 d.tags e he with h | h
      · exact h2T e h
      · rw [h]; rfl
    have h3I : ∀ e ∈ s3.items, isPendingOrError e.syncStatus = false := by
      rw [hs3, (mergeTags_other_tables env.now s2 d.tags).1]; exact h2I
    have h3C : ∀ e ∈ s3.collections, isPendingOrError e.syncStatus = false := by
      rw [hs3, (mergeTags_other_tables env.now s2 d.tags).2.1]; exact h2C
    have h3L : ∀ e ∈ s3.itemTags, isPendingOrError e.syncStatus = false := by
      rw [hs3, (mergeTags_other_tables env.now s2 d.tags).2.2]; exact h2L
    refine ⟨?_, ?_, ?_, ?_⟩
    · rw [(mergeItemTags_other_tables s3 d.itemTags).1]; exact h3I
    · rw [(mergeItemTags_other_tables s3 d.itemTags).2.1]; exact h3C
    · rw [(mergeItemTags_other_tables s3 d.itemTags).2.2]; exact h3T
    · intro e he
      rcases mergeItemTags_mem_cases s3 d.itemTags e he with h | h
      · exact h3L e h
      · rw [h]; rfl

/-- `echoAck` responses pass the structural validation. -/
theorem validateServerResponse_echoAck (c : SyncPayload) :
    validateServerResponse (echoAck c) = true := rfl

/-- `echoAck` responses reach the chunk loop's success arm. -/
theorem chunkAccepted_echoAck (c : SyncPayload) :
    chunkAccepted (Except.ok (echoAck c)) = true := rfl

/-- A successful `markAsSynced` preserves "no row is pending or error". -/
theorem storeAllGood_markAsSynced (now : Nat) (st : Store) (r : RawServerResponse)
    (st' : Store) (hok : markAsSynced now st r = .ok st')
    (hg : storeAllGood st) : storeAllGood st' := by
  obtain ⟨HI, HC, HT, HL⟩ := markAsSynced_ok_mem now st r st' hok
  obtain ⟨hI, hC, hT, hL⟩ := hg
  refine ⟨?_, ?_, ?_, ?_⟩
  · intro e' he'
    obtain ⟨⟨e, he, hcase⟩, -⟩ := HI e' he'
    rcases hcase with h | h
    · rw [h]; exact hI e he
    · simp [h, isPendingOrError]
  · intro e' he'
    obtain ⟨⟨e, he, hcase⟩, -⟩ := HC e' he'
    rcases hcase with h | h
    · rw [h]; exact hC e he
    · simp [h, isPendingOrError]
  · intro e' he'
    obtain ⟨⟨e, he, hcase⟩, -⟩ := HT e' he'
    rcases hcase with h | h
    · rw [h]; exact hT e he
    · simp [h, isPendingOrError]
  · intro e' he'
    obtain ⟨e, he, hcase⟩ := HL e' he'
    rcases hcase with h | h
    · rw [h]; exact hL e he
    · simp [h, isPendingOrError]

/-- Applying an acknowledgement that covers all of the batch's deletion ids to
the store freshly stamped by `markAsSyncing` leaves no pending/error row: the
only rows `markAsSyncing` leaves bad are the soft-deleted ones, and those are
purged by the acknowledged deletions. -/
theorem storeAllGood_first_chunk (now2 : Nat) (st1 : Store) (r : RawServerResponse)
    (st' : Store)
    (hok : markAsSynced now2 (markAsSyncing st1 (gatherPendingData st1)) r = .ok st')
    (hcovI : ∀ x ∈ (gatherPendingData st1).deletions.itemIds,
      x ∈ (r.deleted.getD ⟨none, none, none⟩).items.getD [])
    (hcovC : ∀ x ∈ (gatherPendingData st1).deletions.collectionIds,
      x ∈ ((r.deleted.getD ⟨none, none, none⟩).collections.getD []))
    (hcovT : ∀ x ∈ (gatherPendingData st1).deletions.tagIds,
      x ∈ ((r.deleted.getD ⟨none, none, none⟩).tags.getD [])) :
    storeAllGood st' := by
  obtain ⟨HI, HC, HT, HL⟩ := markAsSynced_ok_mem now2 _ r st' hok
  refine ⟨?_, ?_, ?_, ?_⟩
  · intro e' he'
    obtain ⟨⟨e, he, hcase⟩, hnd⟩ := HI e' he'
    have hid : e'.id = e.id := by rcases hcase with h | h <;> simp [h]
    rcases markAsSyncing_items_cases st1 e he with hgood | hbad
    · rcases hcase with h | h
      · rw [h]; exact hgood
      · simp [h, isPendingOrError]
    · exfalso
      apply hnd
      rw [hid]
      exact hcovI e.id hbad
  · intro e' he'
    obtain ⟨⟨e, he, hcase⟩, hnd⟩ := HC e' he'
    have hid : e'.id = e.id := by rcases hcase with h | h <;> simp [h]
    rcases markAsSyncing_collections_cases st1 e he with hgood | hbad
    · rcases hcase with h | h
      · rw [h]; exact hgood
      · simp [h, isPendingOrError]
    · exfalso
      apply hnd
      rw [hid]
      exact hcovC e.id hbad
  · intro e' he'
    obtain ⟨⟨e, he, hcase⟩, hnd⟩ := HT e' he'
    have hid : e'.id = e.id := by rcases hcase with h | h <;> simp [h]
    rcases markAsSyncing_tags_cases st1 e he with hgood | hbad
    · rcases hcase with h | h
      · rw [h]; exact hgood
      · simp [h, isPendingOrError]
    · exfalso
      apply hnd
      rw [hid]
      exact hcovT e.id hbad
  · intro e' he'
    obtain ⟨e, he, hcase⟩ := HL e' he'
    rcases hcase with h | h
    · rw [h]; exact markAsSyncing_itemTags_good st1 e he
    · simp [h, isPendingOrError]

/-- The store left by the accepted arm of the chunk loop is the
`markAsSynced` result. -/
theorem processChunk_store_of_ok (opts : SyncOptions) (env : SyncEnv) (acc : PushState)
    (chunk : SyncPayload) (i : Nat) (r : RawServerResponse) (st' : Store)
    (hresp : env.responses i = .ok r) (hv : validateServerResponse r = true)
    (hok : markAsSynced env.now acc.store r = .ok st') :
    (processChunk opts env acc chunk i).store = st' := by
  unfold processChunk
  rw [hresp]
  dsimp only
  rw [if_neg (by simp [hv]), hok]

/-- When every transport outcome echoes its chunk, the chunk loop preserves
"no row is pending or error". -/
theorem pushChunks_storeAllGood (opts : SyncOptions) (env : SyncEnv) :
    ∀ (cs : List SyncPayload) (i : Nat) (acc : PushState),
      (∀ j c, cs[j]? = some c → env.responses (i + j) = .ok (echoAck c)) →
      storeAllGood acc.store →
      storeAllGood (pushChunks opts env cs i acc).store := by
  intro cs
  induction cs with
  | nil => intro i acc _ hg; exact hg
  | cons c rest ih =>
    intro i acc hre hg
    have hresp : env.responses i = .ok (echoAck c) := by
      have h0 := hre 0 c (by simp)
      rwa [Nat.add_zero] at h0
    obtain ⟨st', hok, -⟩ :=
      markAsSynced_ok_of_fields env.now acc.store (echoAck c) rfl rfl rfl
    have hstore := processChunk_store_of_ok opts env acc c i (echoAck c) st' hresp
      (validateServerResponse_echoAck c) hok
    have hg' : storeAllGood (processChunk opts env acc c i).store := by
      rw [hstore]
      exact storeAllGood_markAsSynced env.now acc.store (echoAck c) st' hok hg
    show storeAllGood
      (pushChunks opts env rest (i + 1) (processChunk opts env acc c i)).store
    refine ih (i + 1) _ (fun j c' hj => ?_) hg'
    have h1 := hre (j + 1) c' (by simpa using hj)
    rwa [show i + (j + 1) = i + 1 + j by omega] at h1

/-- A store with no pending/error row collects an empty batch. -/
theorem isPayloadEmpty_of_storeAllGood (st : Store) (hg : storeAllGood st) :
    isPayloadEmpty (gatherPendingData st) = true := by
  obtain ⟨hI, hC, hT, hL⟩ := hg
  have fI : st.items.filter (fun i => isPendingOrError i.syncStatus && !i.isDeleted) = [] :=
    List.filter_eq_nil_iff.mpr (fun e he => by simp [hI e he])
  have fC : st.collections.filter
      (fun c => isPendingOrError c.syncStatus && !c.isDeleted) = [] :=
    List.filter_eq_nil_iff.mpr (fun e he => by simp [hC e he])
  have fT : st.tags.filter (fun t => isPendingOrError t.syncStatus && !t.isDeleted) = [] :=
    List.filter_eq_nil_iff.mpr (fun e he => by simp [hT e he])
  have fL : st.itemTags.filter (fun it => isPendingOrError it.syncStatus) = [] :=
    List.filter_eq_nil_iff.mpr (fun e he => by simp [hL e he])
  have dI : st.items.filter (fun i => isPendingOrError i.syncStatus && i.isDeleted) = [] :=
    List.filter_eq_nil_iff.mpr (fun e he => by simp [hI e he])
  have dC : st.collections.filter
      (fun c => isPendingOrError c.syncStatus && c.isDeleted) = [] :=
    List.filter_eq_nil_iff.mpr (fun e he => by simp [hC e he])
  have dT : st.tags.filter (fun t => isPendingOrError t.syncStatus && t.isDeleted) = [] :=
    List.filter_eq_nil_iff.mpr (fun e he => by simp [hT e he])
  unfold isPayloadEmpty gatherPendingData
  dsimp only
  rw [fI, fC, fT, fL, dI, dC, dT]
  rfl

/-- A sync cycle started on a store with no pending/error row returns the
all-zero success result immediately. -/
theorem syncRun_zero_of_storeAllGood (opts : SyncOptions) (st : Store) (env : SyncEnv)
    (hg : storeAllGood st) :
    (syncRun opts false st env).1 = zeroResult true [] := by
  have hemp : isPayloadEmpty (gatherPendingData (processRetryQueue opts st env.now)) = true :=
    isPayloadEmpty_of_storeAllGood (processRetryQueue opts st env.now) hg
  unfold syncRun
  rw [if_neg Bool.false_ne_true, if_pos hemp]

/-- A full sync cycle against an environment that echoes every planned chunk
succeeds and leaves no row pending or error, provided the planned batch either
fits in one chunk or contains at least one item (otherwise the splitter
silently drops the whole batch). -/
theorem syncRun_echo_storeAllGood (opts : SyncOptions) (st : Store) (env : SyncEnv)
    (hresp : ∀ j c, (plannedChunks opts st env)[j]? = some c →
      env.responses j = .ok (echoAck c))
    (hbatch : totalSize (gatherPendingData (processRetryQueue opts st env.now)) ≤
        opts.chunkSize ∨
      (gatherPendingData (processRetryQueue opts st env.now)).items ≠ []) :
    (syncRun opts false st env).1.success = true ∧
    storeAllGood (syncRun opts false st env).2 := by
  by_cases hemp : isPayloadEmpty (gatherPendingData (processRetryQueue opts st env.now)) = true
  · have hrun : syncRun opts false st env =
        (zeroResult true [], pullServerChanges (processRetryQueue opts st env.now) env) := by
      unfold syncRun
      rw [if_neg Bool.false_ne_true, if_pos hemp]
    constructor
    · rw [hrun]; rfl
    · rw [hrun]
      have hg1 := all_good_of_isPayloadEmpty (processRetryQueue opts st env.now) hemp
      exact pullServerChanges_all_good _ env hg1.1 hg1.2.1 hg1.2.2.1 hg1.2.2.2
  · have hrun : syncRun opts false st env =
        (let ps := pushChunks opts env
          (chunkPayload opts.chunkSize
            (gatherPendingData (processRetryQueue opts st env.now))) 0
          { store := markAsSyncing (processRetryQueue opts st env.now)
              (gatherPendingData (processRetryQueue opts st env.now)) }
         ({ success := ps.errors.isEmpty
            itemsSynced := ps.itemsSynced
            collectionsSynced := ps.collectionsSynced
            tagsSynced := ps.tagsSynced
            itemsDeleted := ps.itemsDeleted
            collectionsDeleted := ps.collectionsDeleted
            tagsDeleted := ps.tagsDeleted
            errors := ps.errors
            warnings := ps.warnings }, pullServerChanges ps.store env)) := by
      unfold syncRun
      rw [if_neg Bool.false_ne_true, if_neg hemp]
    have hplanned : plannedChunks opts st env =
        chunkPayload opts.chunkSize
          (gatherPendingData (processRetryQueue opts st env.now)) := by
      unfold plannedChunks
      rw [if_neg hemp]
    obtain ⟨c0, rest, hchunks, hdel⟩ : ∃ c0 rest,
        chunkPayload opts.chunkSize
          (gatherPendingData (processRetryQueue opts st env.now)) = c0 :: rest ∧
        c0.deletions = (gatherPendingData (processRetryQueue opts st env.now)).deletions := by
      by_cases hsmall : totalSize (gatherPendingData (processRetryQueue opts st env.now)) ≤
          opts.chunkSize
      · refine ⟨_, [], ?_, rfl⟩
        unfold chunkPayload
        rw [if_pos hsmall]
      · have hitems : (gatherPendingData (processRetryQueue opts st env.now)).items ≠ [] :=
          hbatch.resolve_left hsmall
        have hs : opts.chunkSize <
            totalSize (gatherPendingData (processRetryQueue opts st env.now)) := by omega
        exact ⟨_, _, chunkPayload_eq_cons_of_items_ne_nil hs hitems, rfl⟩
    have hc0resp : env.responses 0 = .ok (echoAck c0) := by
      apply hresp 0 c0
      rw [hplanned, hchunks]
      simp
    obtain ⟨st0, hok0, -⟩ := markAsSynced_ok_of_fields env.now
      (markAsSyncing (processRetryQueue opts st env.now)
        (gatherPendingData (processRetryQueue opts st env.now)))
      (echoAck c0) rfl rfl rfl
    have hg0 : storeAllGood st0 := by
      refine storeAllGood_first_chunk env.now (processRetryQueue opts st env.now)
        (echoAck c0) st0 hok0 ?_ ?_ ?_
      · intro x hx
        show x ∈ c0.deletions.itemIds
        rw [hdel]
        exact hx
      · intro x hx
        show x ∈ c0.deletions.collectionIds
        rw [hdel]
        exact hx
      · intro x hx
        show x ∈ c0.deletions.tagIds
        rw [hdel]
        exact hx
    have hgps : storeAllGood (pushChunks opts env (c0 :: rest) 0
        { store := markAsSyncing (processRetryQueue opts st env.now)
            (gatherPendingData (processRetryQueue opts st env.now)) }).store := by
      show storeAllGood (pushChunks opts env rest 1
        (processChunk opts env
          { store := markAsSyncing (processRetryQueue opts st env.now)
              (gatherPendingData (processRetryQueue opts st env.now)) } c0 0)).store
      refine pushChunks_storeAllGood opts env rest 1 _ (fun j c' hj => ?_) ?_
      · have h1 := hresp (j + 1) c' (by rw [hplanned, hchunks]; simpa using hj)
        rwa [show (1 : Nat) + j = j + 1 by omega]
      · rw [processChunk_store_of_ok opts env _ c0 0 (echoAck c0) st0 hc0resp
          (validateServerResponse_echoAck c0) hok0]
        exact hg0
    have hei : ∀ l : List String, (l.isEmpty = true) ↔ l = [] := by
      intro l
      cases l <;> simp
    constructor
    · rw [hrun]
      show (pushChunks opts env
        (chunkPayload opts.chunkSize
          (gatherPendingData (processRetryQueue opts st env.now))) 0
        { store := markAsSyncing (processRetryQueue opts st env.now)
            (gatherPendingData (processRetryQueue opts st env.now)) }).errors.isEmpty = true
      rw [hei]
      rw [(pushChunks_spec opts env
        (chunkPayload opts.chunkSize
          (gatherPendingData (processRetryQueue opts st env.now))) 0
        { store := markAsSyncing (processRetryQueue opts st env.now)
            (gatherPendingData (processRetryQueue opts st env.now)) }).1]
      refine ⟨rfl, fun j hj => ?_⟩
      obtain ⟨c, hc⟩ : ∃ c,
          (chunkPayload opts.chunkSize
            (gatherPendingData (processRetryQueue opts st env.now)))[j]? = some c :=
        ⟨_, List.getElem?_eq_getElem hj⟩
      have h1 := hresp j c (by rw [hplanned]; exact hc)
      rw [Nat.zero_add, h1]
      exact chunkAccepted_echoAck c
    · rw [hrun]
      show storeAllGood (pullServerChanges (pushChunks opts env
        (chunkPayload opts.chunkSize
          (gatherPendingData (processRetryQueue opts st env.now))) 0
        { store := markAsSyncing (processRetryQueue opts st env.now)
            (gatherPendingData (processRetryQueue opts st env.now)) }).store env)
      rw [hchunks]
      exact pullServerChanges_all_good _ env hgps.1 hgps.2.1 hgps.2.2.1 hgps.2.2.2

/-- C8 (amended): calling `sync()` twice in succession with no intervening
local mutation, against a remote authority that acknowledges every chunk of
the first cycle verbatim (`echoEnv`), yields a first result with
`success = true` and a second result equal to the all-zero success result
(all six counts zero, no errors, no warnings) — PROVIDED the first cycle's
collected batch either fits within the chunk threshold or contains at least
one item.  (Without that proviso the splitter drops the whole batch, the
first cycle "succeeds" while transmitting nothing, and the second cycle
re-collects the leftovers and reports nonzero counts — see the
counterexample.)  The second cycle may run against any environment: its
result is determined before any transport happens. -/
theorem sync_second_run_zero (opts : SyncOptions) (st : Store)
    (pull : Option SyncPayload) (uuids : Nat → String) (now : Nat) (env2 : SyncEnv)
    (hbatch : totalSize (gatherPendingData (processRetryQueue opts st now)) ≤
        opts.chunkSize ∨
      (gatherPendingData (processRetryQueue opts st now)).items ≠ []) :
    (syncRun opts false st (echoEnv opts st pull uuids now)).1.success = true ∧
    (syncRun opts false (syncRun opts false st (echoEnv opts st pull uuids now)).2
        env2).1 = zeroResult true [] := by
  have hresp : ∀ j c,
      (plannedChunks opts st (echoEnv opts st pull uuids now))[j]? = some c →
      (echoEnv opts st pull uuids now).responses j = .ok (echoAck c) := by
    intro j c hj
    show (match (if isPayloadEmpty (gatherPendingData (processRetryQueue opts st now))
        then []
        else chunkPayload opts.chunkSize
          (gatherPendingData (processRetryQueue opts st now)))[j]? with
      | some c => Except.ok (echoAck c)
      | none => Except.error "Failed to fetch") = Except.ok (echoAck c)
    have hj' : (if isPayloadEmpty (gatherPendingData (processRetryQueue opts st now))
        then []
        else chunkPayload opts.chunkSize
          (gatherPendingData (processRetryQueue opts st now)))[j]? = some c := hj
    rw [hj']
  have hb' : totalSize (gatherPendingData
        (processRetryQueue opts st (echoEnv opts st pull uuids now).now)) ≤
      opts.chunkSize ∨
      (gatherPendingData
        (processRetryQueue opts st (echoEnv opts st pull uuids now).now)).items ≠ [] :=
    hbatch
  have h := syncRun_echo_storeAllGood opts st (echoEnv opts st pull uuids now) hresp hb'
  exact ⟨h.1, syncRun_zero_of_storeAllGood opts _ env2 h.2⟩

set_option maxRecDepth 8000 in
/-- C8 counterexample: chunk threshold 1, a store holding two pending tags and
one soft-deleted pending item.  The collected batch has total size 2 > 1 but
no items, so the splitter returns NO chunks at all; the first sync reports
success with nothing transmitted, and the immediately following sync (still
with a fully acknowledging remote, no intervening mutation) re-collects the
leftover deletion and reports `itemsDeleted = 1` — not all counts zero as
claimed. -/
theorem sync_twice_nonzero_second_count :
    (syncRun cexOptsC8 false cexStoreC8
        (echoEnv cexOptsC8 cexStoreC8 none (fun _ => "u") 100)).1.success = true ∧
    (syncRun cexOptsC8 false cexStoreC8
        (echoEnv cexOptsC8 cexStoreC8 none (fun _ => "u") 100)).1.errors = [] ∧
    (syncRun cexOptsC8 false
        (syncRun cexOptsC8 false cexStoreC8
          (echoEnv cexOptsC8 cexStoreC8 none (fun _ => "u") 100)).2
        (echoEnv cexOptsC8
          (syncRun cexOptsC8 false cexStoreC8
            (echoEnv cexOptsC8 cexStoreC8 none (fun _ => "u") 100)).2
          none (fun _ => "u") 200)).1.success = true ∧
    (syncRun cexOptsC8 false
        (syncRun cexOptsC8 false cexStoreC8
          (echoEnv cexOptsC8 cexStoreC8 none (fun _ => "u") 100)).2
        (echoEnv cexOptsC8
          (syncRun cexOptsC8 false cexStoreC8
            (echoEnv cexOptsC8 cexStoreC8 none (fun _ => "u") 100)).2
          none (fun _ => "u") 200)).1.itemsDeleted = 1 := by
  exact ⟨rfl, rfl, rfl, rfl⟩

set_option maxRecDepth 8000 in
/-- C8 witness: the amended theorem applied to a store with one pending item
under the default options. -/
theorem sync_second_run_zero_witness :
    (totalSize (gatherPendingData (processRetryQueue DEFAULT_SYNC_OPTIONS wStoreC8 0)) ≤
        DEFAULT_SYNC_OPTIONS.chunkSize ∨
      (gatherPendingData (processRetryQueue DEFAULT_SYNC_OPTIONS wStoreC8 0)).items ≠ []) ∧
    ((syncRun DEFAULT_SYNC_OPTIONS false wStoreC8
        (echoEnv DEFAULT_SYNC_OPTIONS wStoreC8 none (fun _ => "u") 0)).1.success = true ∧
      (syncRun DEFAULT_SYNC_OPTIONS false
        (syncRun DEFAULT_SYNC_OPTIONS false wStoreC8
          (echoEnv DEFAULT_SYNC_OPTIONS wStoreC8 none (fun _ => "u") 0)).2
        deadEnv).1 = zeroResult true []) :=
  ⟨Or.inl (by decide),
    sync_second_run_zero DEFAULT_SYNC_OPTIONS wStoreC8 none (fun _ => "u") 0 deadEnv
      (Or.inl (by decide))⟩

end Papermrks
